import Mathlib

/-!
# Verification of the cursorrules-mcp rule database core

Shallow embedding of the rule database subsystem of the `cursorrules-mcp`
repository: the rule model (`src/cursorrules_mcp/models.py`), the version
manager, conflict detector and rule database (`src/cursorrules_mcp/database.py`),
the search scoring engine (`src/cursorrules_mcp/engine.py`) and the
multi-format import pipeline (`src/cursorrules_mcp/rule_import.py`).

Conventions of the embedding:
* Python `dict`s keyed by strings become association lists
  (`List (String × β)`) preserving insertion order, Python `set`s of strings
  become duplicate-free `List String` built by insert-if-absent, matching
  iteration-order-insensitive uses in the source.
* Python floats used for scores and success rates become `ℚ`; all score
  arithmetic in the source is exact decimal arithmetic on small literals.
* `datetime` values become opaque `Nat` timestamps supplied by the caller.
* Python strings are `String`; where the source does character-level work
  (the import pipeline) the embedding works on `List Char` and only ASCII
  behaviour of `str.lower`/`str.strip` is relied on.
* The external `packaging.version` parser is modelled for plain release
  versions (dot-separated decimal integers); every other shape is a parse
  failure, which the source maps to its string-comparison fallback.
-/

namespace CursorRulesMCP

/-! ## Basic Python-string helpers (character-list level) -/

/-- The whitespace characters stripped by Python `str.strip()` (ASCII set). -/
def pyIsSpace (c : Char) : Bool :=
  c = ' ' ∨ c = '\t' ∨ c = '\n' ∨ c = '\x0d' ∨ c = '\x0b' ∨ c = '\x0c'

/-- Python `str.strip()` on a character list. -/
def pyStrip (s : List Char) : List Char :=
  ((s.dropWhile pyIsSpace).reverse.dropWhile pyIsSpace).reverse

/-- `leadsWith pat s` holds when `pat` is an initial segment of `s`
(the prefix test used by the substring scanner). -/
def leadsWith : List Char → List Char → Bool
  | [], _ => true
  | _ :: _, [] => false
  | p :: ps, c :: cs => p = c && leadsWith ps cs

/-- Python `needle in haystack` on character lists: some suffix of the
haystack starts with the needle (true for an empty needle). -/
def hasSub (needle : List Char) : List Char → Bool
  | [] => leadsWith needle []
  | c :: cs => leadsWith needle (c :: cs) || hasSub needle cs

/-- Python `needle in haystack` on strings. -/
def strHasSub (needle haystack : String) : Bool :=
  hasSub needle.toList haystack.toList

/-- Python `s.lower()` (ASCII behaviour). -/
def pyLower (s : String) : String := String.mk (s.toList.map Char.toLower)

/-- Python `s.strip()` on strings. -/
def pyStripStr (s : String) : String := String.mk (pyStrip s.toList)

/-! ## Semantic version parsing

Model of the external `packaging.version` library as used by
`database.py`: `version.parse` succeeds on plain release versions
(dot-separated decimal integer components) and raises otherwise; parsed
versions compare by their release tuples padded with zeros. -/

/-- Split a character list at every occurrence of a single character
(Python `s.split(sep)` for a one-character separator). -/
def splitOnChar (sep : Char) : List Char → List (List Char)
  | [] => [[]]
  | c :: cs =>
    if c = sep then
      [] :: splitOnChar sep cs
    else
      match splitOnChar sep cs with
      | [] => [[c]]
      | p :: ps => (c :: p) :: ps

/-- Numeric value of a digit character sequence (most significant first). -/
def charsVal (cs : List Char) : Nat :=
  cs.foldl (fun acc c => 10 * acc + (c.toNat - 48)) 0

/-- Decimal-digit test (`'0'` to `'9'`). -/
def isDigitChar (c : Char) : Bool := 48 ≤ c.toNat && c.toNat ≤ 57

/-- One dot-separated version component: all decimal digits, non-empty. -/
def parseComponent (cs : List Char) : Option Nat :=
  if cs ≠ [] ∧ cs.all isDigitChar then some (charsVal cs) else none

/-- `version.parse` restricted to plain release versions: returns the list
of numeric components, or `none` (an `InvalidVersion` exception in the
source) when any component is empty or non-numeric. -/
def parseVersion (s : String) : Option (List Nat) :=
  let comps := (splitOnChar '.' s.toList).map parseComponent
  if comps.all (·.isSome) then some (comps.map (·.getD 0)) else none

/-- Whether every component of a release tuple is zero. -/
def allZeroKey : List Nat → Bool
  | [] => true
  | y :: ys => y = 0 && allZeroKey ys

/-- Release-tuple comparison of `packaging.version`: lexicographic with
the shorter tuple padded by zeros (an exhausted left tuple is strictly
smaller exactly when some remaining right component is non-zero; an
exhausted right tuple is never strictly greater). -/
def versionLt : List Nat → List Nat → Bool
  | [], ys => !(allZeroKey ys)
  | _ :: _, [] => false
  | x :: xs, y :: ys => x < y || (x = y && versionLt xs ys)

/-- Python string `<` (lexicographic by code point), the fallback
comparison of `RuleVersionManager._is_newer_version`. -/
def pyStrLt (a b : String) : Bool := decide (a < b)

/-! ## Rule model (`models.py`)

`RuleType`, `ContentType` and `ValidationSeverity` carry exactly the
members declared in `models.py`; `TaskType` (16 members, none of the
`ACADEMIC_WRITING` family referenced by `rule_import.py`) is modelled the
same way. -/

/-- `models.RuleType` (`style`, `content`, `semantic`, `format`,
`performance`, `security`). -/
inductive RuleType
  | style | content | semantic | format | performance | security
deriving DecidableEq, Repr

/-- The `.value` string of a `RuleType` member. -/
def RuleType.value : RuleType → String
  | .style => "style" | .content => "content" | .semantic => "semantic"
  | .format => "format" | .performance => "performance" | .security => "security"

/-- `models.ContentType`: exactly the six members declared in `models.py`
(`code`, `documentation`, `data_interface`, `data`, `algorithm`,
`configuration`). -/
inductive ContentType
  | code | documentation | dataInterface | data | algorithm | configuration
deriving DecidableEq, Repr

/-- The `.value` string of a `ContentType` member. -/
def ContentType.value : ContentType → String
  | .code => "code" | .documentation => "documentation"
  | .dataInterface => "data_interface" | .data => "data"
  | .algorithm => "algorithm" | .configuration => "configuration"

/-- `models.TaskType`: the sixteen members declared in `models.py`. -/
inductive TaskType
  | dataAnalysis | visualization | guiDevelopment | httpService | llmMcp
  | numericalComputation | paperWriting | grantApplication | softwareDesign
  | codeGeneration | testing | documentation | refactoring | debugging
  | optimization | codeReview
deriving DecidableEq, Repr

/-- `models.ValidationSeverity`. -/
inductive ValidationSeverity
  | info | warning | error | critical
deriving DecidableEq, Repr

/-- `models.RuleCondition` (validated shape): `priority` is an integer
constrained by pydantic to `1 ≤ priority ≤ 10`.  `examples` entries are
arbitrary objects in the source and are modelled opaquely as strings. -/
structure RuleCondition where
  condition : String
  guideline : String
  priority : Int
  examples : List String
  pattern : Option String
deriving DecidableEq, Repr

/-- `models.RuleValidation` (the fields read by the database core). -/
structure RuleValidation where
  tools : List String
  severity : ValidationSeverity
deriving DecidableEq, Repr

/-- `models.CursorRule`, restricted to the fields read or written by the
database, engine and import operations verified here (`applies_to`,
`task_types` and the usage counter are carried by no verified operation
and omitted).  Timestamps are opaque `Nat` values. -/
structure CursorRule where
  rule_id : String
  name : String
  description : String
  version : String
  author : String
  created_at : Nat
  updated_at : Nat
  rule_type : RuleType
  languages : List String
  domains : List String
  content_types : List ContentType
  tags : List String
  rules : List RuleCondition
  conflicts_with : List String
  overrides : List String
  validation : RuleValidation
  active : Bool
  usage_count : Nat
  success_rate : ℚ
deriving DecidableEq, Repr

/-- The `validate_tags` pydantic validator of `models.CursorRule`
(`[tag.lower().strip() for tag in v if tag.strip()]`). -/
def validate_tags (v : List String) : List String :=
  (v.filter (fun tag => pyStripStr tag ≠ "")).map (fun tag => pyStripStr (pyLower tag))

/-! ## Association-list helpers for Python dicts -/

/-- Lookup in an insertion-ordered string-keyed dict. -/
def alookup (k : String) : List (String × β) → Option β
  | [] => none
  | (k', v) :: rest => if k' = k then some v else alookup k rest

/-- `d[k] = v`: overwrite in place if the key exists, else append
(Python dict insertion-order semantics). -/
def ainsert (k : String) (v : β) : List (String × β) → List (String × β)
  | [] => [(k, v)]
  | (k', v') :: rest =>
    if k' = k then (k, v) :: rest else (k', v') :: ainsert k v rest

/-- `set.add` on a set-of-strings modelled as a duplicate-free list. -/
def sadd (x : String) (s : List String) : List String :=
  if x ∈ s then s else s ++ [x]

/-! ## Version manager (`database.RuleVersionManager`) -/

/-- `RuleVersionManager` state: `version_history` maps a rule id to all of
its registered versions, `latest_versions` to the current latest version
string. -/
structure VersionManager where
  version_history : List (String × List CursorRule)
  latest_versions : List (String × String)
deriving DecidableEq, Repr

/-- The empty `RuleVersionManager()`. -/
def VersionManager.empty : VersionManager := ⟨[], []⟩

/-- `RuleVersionManager._is_newer_version`: semantic-version comparison,
falling back to plain string comparison when either version fails to
parse. -/
def isNewerVersion (version1 version2 : String) : Bool :=
  match parseVersion version1, parseVersion version2 with
  | some k1, some k2 => versionLt k2 k1
  | _, _ => pyStrLt version2 version1

/-- Sort key used by `add_rule_version`
(`key=lambda r: version.parse(r.version)`).  On an unparseable version the
source raises inside `list.sort`; the default key keeps the model total —
no verified property depends on the resulting order, only on the
membership of the sorted list. -/
def versionSortKey (r : CursorRule) : List Nat := (parseVersion r.version).getD []

/-- Insert into a list sorted by `versionSortKey` (ascending, stable). -/
def insertByKey (r : CursorRule) : List CursorRule → List CursorRule
  | [] => [r]
  | x :: xs =>
    if versionLt (versionSortKey x) (versionSortKey r) then x :: insertByKey r xs
    else r :: x :: xs

/-- Stable sort by `versionSortKey`, modelling `list.sort(key=...)`. -/
def sortByVersion : List CursorRule → List CursorRule
  | [] => []
  | x :: xs => insertByKey x (sortByVersion xs)

/-- `RuleVersionManager.add_rule_version`: initialises the per-id entry on
first sight, rejects an already-registered `(rule_id, version)` pair
(returns `false`, no state change), otherwise appends the rule, advances
the latest pointer when the new version compares strictly newer, and
re-sorts the version list. -/
def addRuleVersion (vm : VersionManager) (rule : CursorRule) : Bool × VersionManager :=
  let vm :=
    if (alookup rule.rule_id vm.version_history).isNone then
      { version_history := ainsert rule.rule_id [] vm.version_history,
        latest_versions := ainsert rule.rule_id rule.version vm.latest_versions }
    else vm
  let history := (alookup rule.rule_id vm.version_history).getD []
  let existing_versions := history.map (·.version)
  if rule.version ∈ existing_versions then (false, vm)
  else
    let newHistory := history ++ [rule]
    let latest := (alookup rule.rule_id vm.latest_versions).getD ""
    let latestVersions :=
      if isNewerVersion rule.version latest then
        ainsert rule.rule_id rule.version vm.latest_versions
      else vm.latest_versions
    (true,
     { version_history := ainsert rule.rule_id (sortByVersion newHistory) vm.version_history,
       latest_versions := latestVersions })

/-- `RuleVersionManager.get_latest_rule`: the stored version whose version
string equals the latest pointer (the two maps share a key set by
construction, so the dict access cannot fail where the history lookup
succeeded). -/
def getLatestRule (vm : VersionManager) (rule_id : String) : Option CursorRule :=
  match alookup rule_id vm.version_history with
  | none => none
  | some history =>
    let latest_version := (alookup rule_id vm.latest_versions).getD ""
    history.find? (fun r => r.version = latest_version)

/-- `RuleVersionManager.get_rule_version`: explicit identifier+version
lookup. -/
def getRuleVersion (vm : VersionManager) (rule_id rule_version : String) : Option CursorRule :=
  match alookup rule_id vm.version_history with
  | none => none
  | some history => history.find? (fun r => r.version = rule_version)

/-- Observer: how many entries of the version history of `rule_id` carry
the version string `v`. -/
def countVersionEntries (vm : VersionManager) (rule_id v : String) : Nat :=
  (((alookup rule_id vm.version_history).getD []).filter
    (fun r => r.version = v)).length

/-! ## Conflict detector (`database.RuleConflictDetector`) -/

/-- One record produced by `detect_conflicts` (`type`, `rule_id`,
`severity`; the human-readable description is not modelled). -/
structure ConflictRecord where
  ctype : String
  other_id : String
  severity : String
deriving DecidableEq, Repr

/-- Distinct members shared by two Python string sets:
`len(set(a) & set(b))` counts each common string once. -/
def commonCount (a b : List String) : Nat :=
  (a.dedup.filter (· ∈ b)).length

/-- `RuleConflictDetector._check_scope_conflict`: a warning when the two
rules share at least one language, one domain and one content type and
have the same rule type. -/
def checkScopeConflict (rule1 rule2 : CursorRule) : Option ConflictRecord :=
  if commonCount rule1.languages rule2.languages ≠ 0 ∧
     commonCount rule1.domains rule2.domains ≠ 0 ∧
     commonCount (rule1.content_types.map ContentType.value)
       (rule2.content_types.map ContentType.value) ≠ 0 then
    if rule1.rule_type = rule2.rule_type then
      some ⟨"scope_overlap", rule2.rule_id, "warning"⟩
    else none
  else none

/-- `RuleConflictDetector._check_validation_tool_conflict`: an info
record when both rules name validation tools, share at least one, and
declare different severities. -/
def checkValidationToolConflict (rule1 rule2 : CursorRule) : Option ConflictRecord :=
  if rule1.validation.tools = [] ∨ rule2.validation.tools = [] then none
  else if commonCount rule1.validation.tools rule2.validation.tools ≠ 0 then
    if rule1.validation.severity ≠ rule2.validation.severity then
      some ⟨"validation_tool_conflict", rule2.rule_id, "info"⟩
    else none
  else none

/-- The records `detect_conflicts` appends for one other rule (in source
order: explicit conflict, override, scope overlap, tool conflict). -/
def conflictsWithOther (rule other : CursorRule) : List ConflictRecord :=
  (if other.rule_id ∈ rule.conflicts_with then
    [⟨"explicit_conflict", other.rule_id, "error"⟩] else []) ++
  (if other.rule_id ∈ rule.overrides then
    [⟨"override", other.rule_id, "warning"⟩] else []) ++
  (checkScopeConflict rule other).toList ++
  (checkValidationToolConflict rule other).toList

/-- `RuleConflictDetector.detect_conflicts`: pairwise scan of the given
rule against every other rule (entries with the candidate's own id are
skipped). -/
def detectConflicts (rule : CursorRule) (all_rules : List CursorRule) : List ConflictRecord :=
  (all_rules.filter (fun other => other.rule_id ≠ rule.rule_id)).flatMap
    (conflictsWithOther rule)

/-! ## Rule database (`database.RuleDatabase`) -/

/-- The four inverted indices of `RuleDatabase.rule_index`
(`languages`, `domains`, `types`, `tags`), each mapping a key to the set
of rule ids carrying it. -/
structure RuleIndex where
  languages : List (String × List String)
  domains : List (String × List String)
  types : List (String × List String)
  tags : List (String × List String)
deriving DecidableEq, Repr

/-- Add one id under one key of an index map (`setdefault` + `set.add`). -/
def bucketAdd (key id : String) (m : List (String × List String)) :
    List (String × List String) :=
  ainsert key (sadd id ((alookup key m).getD [])) m

/-- Add one id under several keys of an index map. -/
def bucketAddAll (keys : List String) (id : String)
    (m : List (String × List String)) : List (String × List String) :=
  keys.foldl (fun m key => bucketAdd key id m) m

/-- The per-rule body of `RuleDatabase._build_indexes`. -/
def indexRule (idx : RuleIndex) (entry : String × CursorRule) : RuleIndex :=
  let (rule_id, rule) := entry
  { languages := bucketAddAll rule.languages rule_id idx.languages,
    domains := bucketAddAll rule.domains rule_id idx.domains,
    types := bucketAdd rule.rule_type.value rule_id idx.types,
    tags := bucketAddAll rule.tags rule_id idx.tags }

/-- `RuleDatabase._build_indexes`: clears the four maps and repopulates
them from every entry of `self.rules` — the loop body applies no `active`
filter. -/
def buildIndexes (rules : List (String × CursorRule)) : RuleIndex :=
  rules.foldl indexRule ⟨[], [], [], []⟩

/-- `RuleDatabase` state: the version manager, the main rule map
(`self.rules`) and the inverted indices. -/
structure RuleDatabase where
  version_manager : VersionManager
  rules : List (String × CursorRule)
  rule_index : RuleIndex
deriving DecidableEq, Repr

/-- A freshly-constructed empty database. -/
def RuleDatabase.empty : RuleDatabase :=
  ⟨VersionManager.empty, [], ⟨[], [], [], []⟩⟩

/-- The per-rule effect of `RuleDatabase.load_rules` (lines 236–242):
every rule deserialized from disk is stored in `self.rules` keyed by its
id, with no check of its `active` flag. -/
def loadRuleIntoMap (db : RuleDatabase) (rule : CursorRule) : RuleDatabase :=
  { db with rules := ainsert rule.rule_id rule db.rules }

/-- `RuleDatabase.get_rule`: explicit version lookup through the version
manager when a version is given, else the main map. -/
def getRule (db : RuleDatabase) (rule_id : String) (version : Option String) :
    Option CursorRule :=
  match version with
  | some v => getRuleVersion db.version_manager rule_id v
  | none => alookup rule_id db.rules

/-- `RuleDatabase.add_rule`: detect conflicts against the current rule
map; refuse (no state change) when any has severity `error`; otherwise
register the version (refusing on a duplicate version), store the rule in
the main map when it is active, and rebuild the indices.  (The optional
file save is I/O and not modelled.) -/
def addRule (db : RuleDatabase) (rule : CursorRule) : Bool × RuleDatabase :=
  let conflicts := detectConflicts rule (db.rules.map (·.2))
  if conflicts.any (fun c => c.severity = "error") then (false, db)
  else
    match addRuleVersion db.version_manager rule with
    | (false, vm) => (false, { db with version_manager := vm })
    | (true, vm) =>
      let rules :=
        if rule.active then ainsert rule.rule_id rule db.rules else db.rules
      (true, { version_manager := vm, rules := rules, rule_index := buildIndexes rules })

/-- The three release components `packaging` exposes as
`major`/`minor`/`micro` (missing components default to `0`). -/
def bumpKey (k : List Nat) : List Nat :=
  [k.getD 0 0, k.getD 1 0, k.getD 2 0 + 1]

/-- Decimal rendering of a `Nat` as Python's `str(int)` produces it. -/
def natChars (n : Nat) : List Char :=
  if n = 0 then ['0'] else (Nat.digits 10 n).reverse.map Nat.digitChar

/-- The `f"{major}.{minor}.{micro + 1}"` string built by `update_rule`. -/
def bumpVersionString (k : List Nat) : String :=
  String.mk (natChars (k.getD 0 0) ++ '.' :: natChars (k.getD 1 0) ++
    '.' :: natChars (k.getD 2 0 + 1))

/-- `RuleDatabase.update_rule`: when the id already has a latest version,
the caller's rule object is mutated in place — its version is advanced
past the current latest (timestamp-suffix fallback when the latest fails
to parse) and its `updated_at` rewritten to the current time — before
`add_rule` is attempted.  The embedding returns the mutated rule
explicitly alongside the success flag and new database state. -/
def updateRule (now : Nat) (db : RuleDatabase) (rule : CursorRule) :
    Bool × CursorRule × RuleDatabase :=
  let rule :=
    match alookup rule.rule_id db.version_manager.latest_versions with
    | none => rule
    | some current_version =>
      match parseVersion current_version with
      | some k => { rule with version := bumpVersionString k }
      | none => { rule with version := current_version ++ "." ++ String.mk (natChars now) }
  let rule := { rule with updated_at := now }
  let (ok, db) := addRule db rule
  (ok, rule, db)

/-! ## Search scoring (`engine.RuleEngine._calculate_rule_score`) -/

/-- The search filter dimensions read by `_calculate_rule_score`
(`models.SearchFilter`).  An absent optional field (`None`) and an empty
value have identical truthiness in every use and are both modelled by the
empty value. -/
structure SearchFilter where
  query : String
  languages : List String
  domains : List String
  tags : List String
  content_types : List String
deriving DecidableEq, Repr

/-- Sum of the condition priorities of a rule, as a rational. -/
def prioritySum (conds : List RuleCondition) : ℚ :=
  ((conds.map (·.priority)).sum : Int)

/-- `RuleEngine._calculate_rule_score`: the weighted relevance sum,
finally multiplied by the success-rate factor. -/
def calculateRuleScore (rule : CursorRule) (f : SearchFilter) : ℚ :=
  let score : ℚ := 0
  let score :=
    if rule.rules ≠ [] then
      score + prioritySum rule.rules / (rule.rules.length : ℚ) * (1 / 10)
    else score
  let score :=
    if f.query ≠ "" then
      let queryLower := pyLower f.query
      let score :=
        if strHasSub queryLower (pyLower rule.name) then score + 3 else score
      let score :=
        if strHasSub queryLower (pyLower rule.description) then score + 2 else score
      score + (3 / 2) *
        ((rule.rules.filter
          (fun c => strHasSub queryLower (pyLower c.guideline))).length : ℚ)
    else score
  let score :=
    if f.tags ≠ [] then score + (commonCount f.tags rule.tags : ℚ) * 2 else score
  let score :=
    if f.languages ≠ [] then
      score + (commonCount f.languages rule.languages : ℚ) * (3 / 2)
    else score
  let score :=
    if f.domains ≠ [] then
      score + (commonCount f.domains rule.domains : ℚ) * (3 / 2)
    else score
  let score :=
    if f.content_types ≠ [] then
      score + (commonCount f.content_types (rule.content_types.map ContentType.value) : ℚ) * 1
    else score
  score * (1 / 2 + rule.success_rate * (1 / 2))

/-! ## Import pipeline (`rule_import.py`)

The import pipeline works on raw text; the embedding uses `List Char`.
`yaml.safe_load` and `frontmatter.load` are external parsers: the
embedding receives their output (the parsed document / the metadata
mapping and body) as input. -/

/-- Worker for `splitOnSeq`: scans left to right; a positive `skip`
counter consumes the remaining characters of a just-matched separator,
`acc` accumulates the current piece in reverse. -/
def splitAux (sep : List Char) : List Char → Nat → List Char → List (List Char)
  | [], _, acc => [acc.reverse]
  | _ :: cs, skip + 1, acc => splitAux sep cs skip acc
  | c :: cs, 0, acc =>
    if leadsWith sep (c :: cs) then
      acc.reverse :: splitAux sep cs (sep.length - 1) []
    else splitAux sep cs 0 (c :: acc)

/-- Python `s.split(sep)` for a non-empty separator: split at every
non-overlapping occurrence, scanning left to right. -/
def splitOnSeq (sep s : List Char) : List (List Char) :=
  splitAux sep s 0 []

/-- One greedy accumulation step shared by both loops of
`_split_content_intelligently`: flush the current part when it is
non-empty and adding the next piece would exceed the cap, else join the
piece on with the separator. -/
def greedyStep (sep : List Char) (maxLength : Nat)
    (st : List (List Char) × List Char) (piece : List Char) :
    List (List Char) × List Char :=
  let (parts, current) := st
  if current ≠ [] ∧ current.length + piece.length > maxLength then
    (parts ++ [pyStrip current], piece)
  else
    (parts, if current ≠ [] then current ++ sep ++ piece else piece)

/-- Greedy re-joining of pieces under a length cap, appending the final
stripped part when non-blank (the shape of both loops of
`_split_content_intelligently`). -/
def greedyJoin (sep : List Char) (maxLength : Nat) (pieces : List (List Char)) :
    List (List Char) :=
  let (parts, current) := pieces.foldl (greedyStep sep maxLength) ([], [])
  if pyStrip current ≠ [] then parts ++ [pyStrip current] else parts

/-- `MarkdownRuleParser._split_content_intelligently`: split on
`'\n##'` boundaries (re-inserting the `'##'` marker), greedily re-join
under the cap, then split any part still over the cap on blank-line
(`'\n\n'`) paragraph boundaries with the same greedy re-joining; an empty
result falls back to the truncated head of the content. -/
def splitContentIntelligently (content : List Char) (maxLength : Nat) :
    List (List Char) :=
  let sections := splitOnSeq ['\n', '#', '#'] content
  let sections :=
    match sections with
    | [] => []
    | s :: rest => s :: rest.map (fun t => '#' :: '#' :: t)
  let parts := greedyJoin ['\n'] maxLength sections
  let refined := parts.flatMap (fun part =>
    if part.length > maxLength then
      greedyJoin ['\n', '\n'] maxLength (splitOnSeq ['\n', '\n'] part)
    else [part])
  if refined ≠ [] then refined
  else [content.take maxLength ++ "...[内容已截断]".toList]

/-- One extracted Markdown section (`_extract_main_sections` entries). -/
structure MdSection where
  level : Nat
  title : List Char
  content : List Char
deriving DecidableEq, Repr

/-- The heading test `re.match(r'^(#{1,6})\s+(.+)', line)` of
`_extract_main_sections`: one to six leading `'#'` characters (a seventh
defeats every shorter prefix because the next character is then `'#'`,
not whitespace), followed by at least one whitespace character and at
least one further character.  The source applies `.strip()` to the title
group, so the returned title is the stripped remainder of the line
(stripping absorbs the difference between the greedy and backtracking
splits of `\s+(.+)`). -/
def headingMatch (line : List Char) : Option (Nat × List Char) :=
  let n := (line.takeWhile (· = '#')).length
  let rest := line.drop n
  if 1 ≤ n ∧ n ≤ 6 then
    match rest with
    | [] => none
    | c :: cs => if pyIsSpace c ∧ cs ≠ [] then some (n, pyStrip rest) else none
  else none

/-- Lines re-joined with `'\n'.join`. -/
def joinLines (ls : List (List Char)) : List Char := List.intercalate ['\n'] ls

/-- Close the section being accumulated: kept only when it has
accumulated lines whose stripped join is non-empty (lines before the
first heading are discarded because no section is open). -/
def finishSection (cur : Option (Nat × List Char)) (acc : List (List Char)) :
    List MdSection :=
  match cur with
  | none => []
  | some (level, title) =>
    if acc ≠ [] then
      let content := pyStrip (joinLines acc)
      if content ≠ [] then [⟨level, title, content⟩] else []
    else []

/-- The line loop of `_extract_main_sections`. -/
def extractSectionsAux (cur : Option (Nat × List Char))
    (acc : List (List Char)) : List (List Char) → List MdSection
  | [] => finishSection cur acc
  | line :: rest =>
    match headingMatch line with
    | some (level, title) =>
      finishSection cur acc ++ extractSectionsAux (some (level, title)) [] rest
    | none => extractSectionsAux cur (acc ++ [line]) rest

/-- `MarkdownRuleParser._extract_main_sections`. -/
def extractMainSections (content : List Char) : List MdSection :=
  extractSectionsAux none [] (splitOnChar '\n' content)

/-- ASCII `str.lower()` on a character list. -/
def pyLowerChars (s : List Char) : List Char := s.map Char.toLower

/-- The normative-keyword list of `_build_rule_data` (lines 273–278). -/
def coreKeywords : List String :=
  ["结构规范", "写作规范", "引用规范", "图表规范", "数据呈现规范",
   "标准论文结构", "章节编号", "语言要求", "句式规范",
   "文献引用格式", "引用原则", "图片要求", "表格要求",
   "数值表示", "统计分析", "质量检查清单", "内容检查", "格式检查", "学术规范检查"]

/-- `is_core_section`: some keyword occurs in the lower-cased title. -/
def isCoreSection (sec : MdSection) : Bool :=
  coreKeywords.any (fun kw => hasSub kw.toList (pyLowerChars sec.title))

/-- A section qualifies as core when keyword-matching, or substantial
(content over 100 characters) at heading level at most 3
(lines 281–285). -/
def qualifiesCore (sec : MdSection) : Bool :=
  isCoreSection sec ∨ (sec.content.length > 100 ∧ sec.level ≤ 3)

/-- The core-section filter of `_build_rule_data`. -/
def coreSectionsOf (secs : List MdSection) : List MdSection :=
  secs.filter qualifiesCore

/-- `section_priority` (lines 290–297): 1 for normative-keyword titles,
2 for content over 200 characters, 3 otherwise. -/
def sectionPriority (sec : MdSection) : Nat :=
  if (["规范", "structure", "format", "style"] : List String).any
      (fun kw => hasSub kw.toList (pyLowerChars sec.title)) then 1
  else if sec.content.length > 200 then 2 else 3

/-- Python's `sorted` is stable, so sorting by the three-valued
`section_priority` key is bucket concatenation. -/
def stableSortByPriority (secs : List MdSection) : List MdSection :=
  secs.filter (fun s => sectionPriority s = 1) ++
  secs.filter (fun s => sectionPriority s = 2) ++
  secs.filter (fun s => sectionPriority s = 3)

/-- The selection step of `_build_rule_data`: when more than 15 sections
qualify, keep the 15 best by `section_priority` (lines 288–299). -/
def selectCoreSections (secs : List MdSection) : List MdSection :=
  let core := coreSectionsOf secs
  if core.length > 15 then (stableSortByPriority core).take 15 else core

/-- The frontmatter metadata mapping of a Markdown rule document (the
keys `_build_rule_data` reads; `none` models an absent key). -/
structure MdMetadata where
  rule_id : Option String
  name : Option String
  description : Option String
  version : Option String
  author : Option String
  rule_type : Option String
  typeKey : Option String
  languages : Option (List String)
  domains : Option (List String)
  task_types : Option (List String)
  content_types : Option (List String)
  tags : Option (List String)
  condition : Option String
  priority : Option Int
  pattern : Option String
  guideline : Option String
  conflicts_with : Option (List String)
  overrides : Option (List String)
  active : Option Bool
  usage_count : Option Nat
  success_rate : Option ℚ
deriving Repr

/-- A metadata mapping with every optional key absent. -/
def MdMetadata.emptyMeta : MdMetadata :=
  ⟨none, none, none, none, none, none, none, none, none, none, none,
   none, none, none, none, none, none, none, none, none, none⟩

/-- The optional blocks `_parse_markdown_content` extracts with
`re.search` and the fenced-code-block example scan.  The regular
expressions are external machinery (`re`); the embedding receives their
results.  Every pattern requires one of its literal heading keywords
(e.g. `Guideline`, `示例`, `Description`) or a code fence, so for a
document containing none of those, all fields are empty. -/
structure RegexBlocks where
  guideline : Option (List Char)
  description : Option (List Char)
  examples : List String
deriving Repr

/-- The regex results for a document containing none of the pattern
keywords and no fenced code block. -/
def RegexBlocks.noneFound : RegexBlocks := ⟨none, none, []⟩

/-- The mapping `_parse_markdown_content` returns, with its actual keys:
`full_content` (line 120), `sections` (line 122), the optional
regex-extracted blocks, and `parsed_examples`. -/
structure ParsedContent where
  fullContent : List Char
  sections : List MdSection
  guidelineOpt : Option (List Char)
  descriptionOpt : Option (List Char)
  parsedExamples : List String
deriving Repr

/-- `MarkdownRuleParser._parse_markdown_content`. -/
def parseMarkdownContent (content : List Char) (rb : RegexBlocks) : ParsedContent :=
  { fullContent := content,
    sections := extractMainSections content,
    guidelineOpt := rb.guideline,
    descriptionOpt := rb.description,
    parsedExamples := rb.examples }

/-- Source line 262: `main_sections = content.get('main_sections', [])`.
`_parse_markdown_content` stores the extracted sections under the key
`'sections'` (line 122) and never sets `'main_sections'`, so this lookup
always yields the default empty list. -/
def mainSectionsOf (_content : ParsedContent) : List MdSection := []

/-- A rule-condition dictionary as `_build_rule_data` assembles it,
before pydantic validation. -/
structure CondDict where
  condition : List Char
  guideline : List Char
  priority : Int
  examples : List String
  pattern : Option String
deriving DecidableEq, Repr

/-- The per-section conditions of `_build_rule_data` (lines 302–310):
condition name `{condition}_{level}_{i+1}`, guideline
`"**{title}**\n\n{content}"`, priority decreased by one per heading level
below 1. -/
def sectionConditions (md : MdMetadata) : Nat → List MdSection → List CondDict
  | _, [] => []
  | i, sec :: rest =>
    { condition := (md.condition.getD "main_rule").toList ++
        '_' :: natChars sec.level ++ '_' :: natChars (i + 1),
      guideline := '*' :: '*' :: sec.title ++ '*' :: '*' :: '\n' :: '\n' :: sec.content,
      priority := md.priority.getD 8 - ((sec.level : Int) - 1),
      examples := [],
      pattern := md.pattern } :: sectionConditions md (i + 1) rest

/-- The long-content fallback conditions of `_build_rule_data`
(lines 322–331): chunk `i` (0-based) is named `{condition}_part_{i+1}`
and carries priority `metadata.get('priority', 8) - i`. -/
def chunkConditions (md : MdMetadata) : Nat → List (List Char) → List CondDict
  | _, [] => []
  | i, part :: rest =>
    { condition := (md.condition.getD "main_rule").toList ++
        "_part_".toList ++ natChars (i + 1),
      guideline := part,
      priority := md.priority.getD 8 - (i : Int),
      examples := [],
      pattern := md.pattern } :: chunkConditions md (i + 1) rest

/-- The condition-synthesis block of `_build_rule_data` (lines 260–352):
section-based conditions when `main_sections` is non-empty (it never is,
see `mainSectionsOf`); otherwise the full-content fallback — chunked
when over 5000 characters, the whole body as one guideline otherwise —
and finally the parsed code examples attached to the first condition. -/
def synthesizeRuleConditions (md : MdMetadata) (content : ParsedContent) :
    List CondDict :=
  let mainSections := mainSectionsOf content
  let rules : List CondDict :=
    if mainSections ≠ [] then
      sectionConditions md 0 (selectCoreSections mainSections)
    else []
  let rules :=
    if rules = [] then
      let condition := (md.condition.getD "main_rule").toList
      let guideline := content.guidelineOpt.getD (md.guideline.getD "").toList
      let (chunked, guideline) :=
        if pyStrip content.fullContent ≠ [] then
          if content.fullContent.length > 5000 then
            (chunkConditions md 0 (splitContentIntelligently content.fullContent 2000),
             guideline)
          else ([], content.fullContent)
        else ([], guideline)
      if chunked = [] then
        [{ condition := condition, guideline := guideline,
           priority := md.priority.getD 8,
           examples := content.parsedExamples, pattern := md.pattern }]
      else chunked
    else rules
  match rules, content.parsedExamples with
  | r :: rs, e :: es => { r with examples := e :: es } :: rs
  | rs, _ => rs

/-- The Python exceptions surfaced by the import pipeline.
`attributeError` stands for `AttributeError`; the others for the
`ValueError`s and pydantic `ValidationError`s the source raises.  The
callers wrap each of these into `RuleImportError` with the cause kept in
the message. -/
inductive PyErr
  | attributeError
  | valueMissingRuleId
  | valueMissingName
  | validationError
deriving DecidableEq, Repr

/-- `MarkdownRuleParser._convert_rule_type` (total, defaulting to
`content`). -/
def convertRuleType (rule_type : String) : RuleType :=
  let s := pyLower rule_type
  if s = "style" then .style
  else if s = "content" then .content
  else if s = "format" then .format
  else if s = "performance" then .performance
  else if s = "security" then .security
  else .content

/-- `MarkdownRuleParser._convert_task_types`: its lookup-table literal
names `TaskType.ACADEMIC_WRITING`, `TaskType.TECHNICAL_REPORTS` and
fourteen further members that `models.TaskType` does not declare, so
evaluating the dict literal raises `AttributeError` before the argument
is inspected — the function never returns. -/
def convertTaskTypes (_task_types : List String) : Except PyErr (List TaskType) :=
  .error .attributeError

/-- `MarkdownRuleParser._convert_content_types`: its lookup-table literal
names `ContentType.ACADEMIC_PAPER` and further members that
`models.ContentType` does not declare, so it likewise always raises
`AttributeError`. -/
def convertContentTypes (_content_types : List String) : Except PyErr (List ContentType) :=
  .error .attributeError

/-- `MarkdownRuleParser._convert_validation_severity`. -/
def convertValidationSeverity (severity : String) : ValidationSeverity :=
  let s := pyLower severity
  if s = "error" then .error
  else if s = "warning" then .warning
  else if s = "info" then .info
  else .warning

/-- The rule-data dictionary `_build_rule_data` assembles (the fields its
consumer `_create_cursor_rule` reads; `applies_to` carries no verified
operation and is omitted). -/
structure RuleData where
  rule_id : String
  name : String
  description : String
  version : String
  author : String
  created_at : Nat
  updated_at : Nat
  rule_type : RuleType
  languages : List String
  domains : List String
  task_types : List TaskType
  content_types : List ContentType
  tags : List String
  rules : List CondDict
  conflicts_with : List String
  overrides : List String
  validationTools : List String
  validationSeverity : String
  active : Bool
  usage_count : Nat
  success_rate : ℚ
deriving Repr

/-- `MarkdownRuleParser._build_rule_data` (lines 242–385), for a document
whose required `rule_id` and `name` keys are present.  The enum
conversions at lines 257–258 raise `AttributeError`
(see `convertTaskTypes`), so the function always fails there; the rest of
the construction (never reached in the source either) is kept to mirror
the source text. -/
def buildRuleData (now : Nat) (rid nm : String) (md : MdMetadata)
    (content : ParsedContent) : Except PyErr RuleData := do
  let description := md.description.getD
    (String.mk (content.descriptionOpt.getD "".toList))
  let rule_type := convertRuleType (md.rule_type.getD (md.typeKey.getD "content"))
  let languages := md.languages.getD []
  let domains := md.domains.getD []
  let task_types ← convertTaskTypes (md.task_types.getD [])
  let content_types ← convertContentTypes (md.content_types.getD ["code"])
  let tags := md.tags.getD []
  let rules := synthesizeRuleConditions md content
  pure
    { rule_id := rid, name := nm, description := description,
      version := md.version.getD "1.0.0", author := md.author.getD "Unknown",
      created_at := now, updated_at := now, rule_type := rule_type,
      languages := languages, domains := domains, task_types := task_types,
      content_types := content_types, tags := tags, rules := rules,
      conflicts_with := md.conflicts_with.getD [],
      overrides := md.overrides.getD [],
      validationTools := [], validationSeverity := "warning",
      active := md.active.getD true, usage_count := md.usage_count.getD 0,
      success_rate := md.success_rate.getD 0 }

/-- Pydantic validation of one `RuleCondition` (`models.py` line 72):
`priority` must satisfy `1 ≤ priority ≤ 10`. -/
def mkRuleCondition (c : CondDict) : Except PyErr RuleCondition :=
  if 1 ≤ c.priority ∧ c.priority ≤ 10 then
    .ok ⟨String.mk c.condition, String.mk c.guideline, c.priority,
         c.examples, c.pattern⟩
  else .error .validationError

/-- `MarkdownRuleParser._create_cursor_rule` plus the `CursorRule`
pydantic validators: each condition dict is validated, the rule id must
start with `"CR-"`, the success rate must lie in `[0, 1]`, and the tags
are normalized by `validate_tags`. -/
def createCursorRule (rd : RuleData) : Except PyErr CursorRule := do
  let conds ← rd.rules.mapM mkRuleCondition
  if ¬ rd.rule_id.startsWith "CR-" then throw .validationError
  if ¬ (0 ≤ rd.success_rate ∧ rd.success_rate ≤ 1) then throw .validationError
  pure
    { rule_id := rd.rule_id, name := rd.name, description := rd.description,
      version := rd.version, author := rd.author,
      created_at := rd.created_at, updated_at := rd.updated_at,
      rule_type := rd.rule_type, languages := rd.languages,
      domains := rd.domains, content_types := rd.content_types,
      tags := validate_tags rd.tags, rules := conds,
      conflicts_with := rd.conflicts_with, overrides := rd.overrides,
      validation := ⟨rd.validationTools, convertValidationSeverity rd.validationSeverity⟩,
      active := rd.active, usage_count := rd.usage_count,
      success_rate := rd.success_rate }

/-- `MarkdownRuleParser.parse` after `frontmatter.load` (external) has
produced the metadata mapping and body: the required `rule_id` and `name`
keys are checked, the body is parsed, and the rule is built. -/
def markdownParse (now : Nat) (md : MdMetadata) (body : List Char)
    (rb : RegexBlocks) : Except PyErr CursorRule := do
  let some rid := md.rule_id | throw .valueMissingRuleId
  let some nm := md.name | throw .valueMissingName
  let parsed := parseMarkdownContent body rb
  let rd ← buildRuleData now rid nm md parsed
  createCursorRule rd

/-! ## YAML content import (`YamlRuleParser.import_content`) -/

/-- A parsed YAML document as `yaml.safe_load` returns it: strings,
lists, string-keyed mappings, `null`, and other scalars. -/
inductive YVal
  | str (s : String)
  | vlist (l : List YVal)
  | vdict (d : List (String × YVal))
  | null
  | other
deriving Repr

/-- Python truthiness of a loaded YAML value (the `if not data:` check). -/
def yIsFalsy : YVal → Bool
  | .str s => s = ""
  | .vlist l => l.isEmpty
  | .vdict d => d.isEmpty
  | .null => true
  | .other => false

/-- The truncation markers of `import_content` (lines 729–737). -/
def truncationMarkers : List String :=
  ["[... 其余内容 ...]", "[...其余内容...]",
   "[... 内容省略以保持简洁 ...]", "[...内容省略以保持简洁...]",
   "[...省略...]", "[省略]", "[...]"]

/-- `check_truncation`: some marker occurs in the string. -/
def checkTruncation (s : String) : Bool :=
  truncationMarkers.any (fun marker => strHasSub marker s)

mutual
/-- `find_truncation_in_dict`: scan the values of a mapping — strings
directly, lists item-wise (nested mappings recursively, string items
directly, any other item never matches because `check_truncation` only
inspects strings), nested mappings recursively.  The source returns a
formatted location message; the embedding returns the offending key. -/
def findTruncationInDict : List (String × YVal) → Option String
  | [] => none
  | (key, value) :: rest =>
    match value with
    | .str s =>
      if checkTruncation s then some key else findTruncationInDict rest
    | .vlist items =>
      match findTruncationInList items with
      | some msg => some msg
      | none => findTruncationInDict rest
    | .vdict d =>
      match findTruncationInDict d with
      | some msg => some msg
      | none => findTruncationInDict rest
    | _ => findTruncationInDict rest

/-- The list-item scan inside `find_truncation_in_dict`. -/
def findTruncationInList : List YVal → Option String
  | [] => none
  | item :: rest =>
    match item with
    | .vdict d =>
      match findTruncationInDict d with
      | some msg => some msg
      | none => findTruncationInList rest
    | .str s =>
      if checkTruncation s then some "list-item" else findTruncationInList rest
    | _ => findTruncationInList rest
end

/-- The failures of `import_content`, every one of which the source wraps
into a `RuleImportError` whose message preserves the cause; the
constructors model the distinguishable causes.  `attributeError` covers
the `AttributeError`s described at the relevant sites. -/
inductive ImportErr
  | emptyContent
  | truncationDetected (location : String)
  | appendMissingRuleId
  | missingRuleId
  | missingName
  | attributeError
deriving DecidableEq, Repr

/-- `YamlRuleParser._create_rule_from_yaml` for an already-loaded
mapping: the required `rule_id` and `name` keys are checked
(lines 629–633), the simplified top-level `guideline`/`condition` form is
folded into a `rules` list and defaults are installed (lines 639–667,
which cannot fail), and then line 671 calls `_convert_task_types`, which
raises `AttributeError` (see `convertTaskTypes`) — so the function never
returns a rule. -/
def createRuleFromYaml (d : List (String × YVal)) : Except ImportErr CursorRule :=
  if (alookup "rule_id" d).isNone then .error .missingRuleId
  else if (alookup "name" d).isNone then .error .missingName
  else .error .attributeError

/-- `YamlRuleParser.import_content` on an already-loaded document
(`yaml.safe_load` is the external YAML parser): reject falsy documents;
scan for truncation markers (a non-mapping document makes the scanner
call `.items()` on it, an `AttributeError`); reject a marked document
unless in append mode; in append mode, require a truthy `rule_id` and
then call `self.db.get_rule_by_id` — an attribute that
`database.RuleDatabase` does not define, so every append-mode import
raises `AttributeError` (the merge helper `_merge_rule_content` named at
line 786 is likewise defined nowhere); otherwise build the rules. -/
def importContent (_db : RuleDatabase) (data : YVal)
    (_merge append_mode : Bool) : Except ImportErr (List CursorRule) :=
  if yIsFalsy data then .error .emptyContent
  else
    match data with
    | .vdict d =>
      let truncation_location := findTruncationInDict d
      if truncation_location.isSome ∧ ¬ append_mode then
        .error (.truncationDetected (truncation_location.getD ""))
      else if append_mode then
        match alookup "rule_id" d with
        | none => .error .appendMissingRuleId
        | some v =>
          if yIsFalsy v then .error .appendMissingRuleId
          else .error .attributeError
      else
        (createRuleFromYaml d).map (fun r => [r])
    | _ => .error .attributeError

/-! ## Concrete sample data

Small concrete rules, databases and documents used by the witnesses and
counterexamples below. -/

/-- A minimal well-formed rule; the samples below vary its fields. -/
def baseRule : CursorRule :=
  { rule_id := "CR-A", name := "A", description := "", version := "1.0.0",
    author := "t", created_at := 0, updated_at := 0, rule_type := .content,
    languages := [], domains := [], content_types := [], tags := [],
    rules := [⟨"c", "g", 5, [], none⟩], conflicts_with := [], overrides := [],
    validation := ⟨[], .warning⟩, active := true, usage_count := 0,
    success_rate := 0 }

/-- Version 1.0.0 of rule `CR-A`. -/
def ruleA100 : CursorRule := baseRule

/-- A candidate that names its own identifier in `conflicts_with`. -/
def ruleSelfConf : CursorRule :=
  { baseRule with version := "1.1.0", conflicts_with := ["CR-A"] }

/-- A database holding only `CR-A` version 1.0.0. -/
def dbA : RuleDatabase := (addRule RuleDatabase.empty ruleA100).2

/-- A second rule `CR-B`. -/
def ruleB : CursorRule := { baseRule with rule_id := "CR-B" }

/-- A database holding `CR-A` and `CR-B`. -/
def dbAB : RuleDatabase := (addRule dbA ruleB).2

/-- An update candidate for `CR-A` that conflicts with `CR-B`. -/
def updCand : CursorRule :=
  { baseRule with conflicts_with := ["CR-B"] }

/-- Rule `CR-V` at a given version. -/
def rV (v : String) : CursorRule := { baseRule with rule_id := "CR-V", version := v }

/-- A candidate rule of a fresh identifier that declares a conflict with
the stored rule `CR-A`. -/
def ruleConfA : CursorRule :=
  { baseRule with rule_id := "CR-C", conflicts_with := ["CR-A"] }

/-- The version manager after registering versions 1.0.0, 1.2.0, 1.1.0 of
`CR-V` in that order. -/
def vm3 : VersionManager :=
  (addRuleVersion
    (addRuleVersion
      (addRuleVersion VersionManager.empty (rV "1.0.0")).2 (rV "1.2.0")).2
    (rV "1.1.0")).2

/-- An inactive rule tagged with one language. -/
def inactiveRule : CursorRule :=
  { baseRule with rule_id := "CR-INACT", languages := ["python"], active := false }

/-- A database that loaded `inactiveRule` from disk. -/
def dbInact : RuleDatabase := loadRuleIntoMap RuleDatabase.empty inactiveRule

/-- A stored rule `CR-X-1` (target of the continuation-mode import). -/
def ruleX : CursorRule := { baseRule with rule_id := "CR-X-1", name := "X" }

/-- A database holding `CR-X-1`. -/
def dbX : RuleDatabase := (addRule RuleDatabase.empty ruleX).2

/-- A loaded YAML mapping whose `guideline` field carries the `"[...]"`
truncation marker, addressed to the stored rule `CR-X-1`. -/
def truncDoc : List (String × YVal) :=
  [("rule_id", .str "CR-X-1"), ("name", .str "X"),
   ("guideline", .str "partial content [...]")]

/-- Frontmatter metadata of the Markdown sample documents. -/
def md3 : MdMetadata :=
  { MdMetadata.emptyMeta with
    rule_id := some "CR-T-1", name := some "T", description := some "d" }

/-- A Markdown body with one level-2 section of 150 characters — a
qualifying core section. -/
def body3 : List Char := "## Data Layout\n".toList ++ List.replicate 150 'b'

/-- Frontmatter metadata of the long heading-free sample document. -/
def md10 : MdMetadata :=
  { MdMetadata.emptyMeta with
    rule_id := some "CR-L-1", name := some "L", description := some "d" }

/-- A 1100-character heading-free paragraph. -/
def paraA : List Char := List.replicate 1100 'a'

/-- A heading-free body made of `n` copies of `paraA` joined by blank
lines (`"\n\n"`). -/
def nnJoin : Nat → List Char
  | 0 => []
  | 1 => paraA
  | n + 2 => paraA ++ '\n' :: '\n' :: nnJoin (n + 1)

/-- A heading-free body of nine paragraphs (9916 characters). -/
def body10 : List Char := nnJoin 9

/-- A rule with text fields and classification used by the scoring
witness. -/
def scoreRule : CursorRule :=
  { baseRule with
    rule_id := "CR-S", name := "Line length", description := "keep lines short",
    tags := ["style"], languages := ["python"],
    rules := [⟨"c1", "use short lines", 4, [], none⟩, ⟨"c2", "other", 6, [], none⟩],
    success_rate := 1 / 2 }

/-- A search filter matching `scoreRule` on query, language and tag. -/
def scoreFilter : SearchFilter :=
  { query := "short", languages := ["python"], domains := [],
    tags := ["style"], content_types := [] }

/-! ## Helper lemmas -/

theorem alookup_ainsert_self (k : String) (v : β) (m : List (String × β)) :
    alookup k (ainsert k v m) = some v := by
  induction m with
  | nil => simp [ainsert, alookup]
  | cons p m ih =>
    obtain ⟨k', v'⟩ := p
    by_cases h : k' = k
    · simp [ainsert, alookup, h]
    · simp [ainsert, alookup, h, ih]

theorem alookup_ainsert_ne (k k' : String) (v : β) (m : List (String × β))
    (h : k' ≠ k) : alookup k' (ainsert k v m) = alookup k' m := by
  induction m with
  | nil => simp [ainsert, alookup, Ne.symm h]
  | cons p m ih =>
    obtain ⟨k₀, v₀⟩ := p
    by_cases h₀ : k₀ = k
    · subst h₀
      simp [ainsert, alookup, Ne.symm h]
    · simp [ainsert, alookup, h₀, ih]

theorem insertByKey_perm (r : CursorRule) (l : List CursorRule) :
    (insertByKey r l).Perm (r :: l) := by
  induction l with
  | nil => simp [insertByKey]
  | cons x xs ih =>
    by_cases h : versionLt (versionSortKey x) (versionSortKey r)
    · simp only [insertByKey, if_pos h]
      exact (ih.cons x).trans (List.Perm.swap r x xs)
    · simp [insertByKey, if_neg h]

theorem sortByVersion_perm (l : List CursorRule) :
    (sortByVersion l).Perm l := by
  induction l with
  | nil => simp [sortByVersion]
  | cons x xs ih =>
    exact (insertByKey_perm x (sortByVersion xs)).trans (ih.cons x)

theorem find?_unique {p : α → Bool} {a : α} {l : List α}
    (hmem : a ∈ l) (hp : p a = true)
    (huniq : ∀ x ∈ l, p x = true → x = a) :
    l.find? p = some a := by
  induction l with
  | nil => simp at hmem
  | cons x xs ih =>
    by_cases hx : p x = true
    · have : x = a := huniq x (by simp) hx
      simp [List.find?, this ▸ hx, this]
    · have hxa : x ≠ a := fun hh => hx (hh ▸ hp)
      have hmem' : a ∈ xs := by
        rcases List.mem_cons.mp hmem with hh | hh
        · exact absurd hh.symm hxa
        · exact hh
      simp only [List.find?, Bool.not_eq_true] at hx ⊢
      rw [hx]
      exact ih hmem' (fun x hx' hp' => huniq x (by simp [hx']) hp')

/-- A failed `add_rule_version` leaves the version manager unchanged. -/
theorem addRuleVersion_false_unchanged (vm : VersionManager) (r : CursorRule)
    (h : (addRuleVersion vm r).1 = false) : (addRuleVersion vm r).2 = vm := by
  by_cases hnone : (alookup r.rule_id vm.version_history).isNone
  · exfalso
    simp only [addRuleVersion, if_pos hnone, alookup_ainsert_self] at h
    simp at h
  · simp only [addRuleVersion, if_neg hnone] at h ⊢
    by_cases hdup :
        r.version ∈ ((alookup r.rule_id vm.version_history).getD []).map (·.version)
    · simp [hdup]
    · simp [hdup] at h

/-- A failed `add_rule` leaves the database unchanged. -/
theorem addRule_false_unchanged (db : RuleDatabase) (r : CursorRule)
    (h : (addRule db r).1 = false) : (addRule db r).2 = db := by
  cases hany : (detectConflicts r (db.rules.map (·.2))).any (fun c => c.severity = "error") with
  | true => simp [addRule, hany]
  | false =>
    rcases hv : addRuleVersion db.version_manager r with ⟨ok, vm⟩
    cases ok with
    | false =>
      have hvm := addRuleVersion_false_unchanged db.version_manager r (by rw [hv])
      rw [hv] at hvm
      simp only at hvm
      simp [addRule, hany, hv, hvm]
    | true => simp [addRule, hany, hv] at h

/-- Registering an already-present `(rule_id, version)` pair fails and
leaves the version manager unchanged. -/
theorem addRuleVersion_duplicate (vm : VersionManager) (r : CursorRule)
    (hdup : r.version ∈ ((alookup r.rule_id vm.version_history).getD []).map (·.version)) :
    addRuleVersion vm r = (false, vm) := by
  cases hl : alookup r.rule_id vm.version_history with
  | none => rw [hl] at hdup; simp at hdup
  | some hist =>
    rw [hl] at hdup
    simp only [Option.getD_some] at hdup
    simp [addRuleVersion, hl, hdup]

/-- A successful registration stores the re-sorted extended history. -/
theorem addRuleVersion_success_history (vm : VersionManager) (r : CursorRule)
    (hnodup : r.version ∉ ((alookup r.rule_id vm.version_history).getD []).map (·.version)) :
    (addRuleVersion vm r).1 = true ∧
    alookup r.rule_id ((addRuleVersion vm r).2).version_history =
      some (sortByVersion (((alookup r.rule_id vm.version_history).getD []) ++ [r])) := by
  cases hl : alookup r.rule_id vm.version_history with
  | none =>
    simp [addRuleVersion, hl, alookup_ainsert_self]
  | some hist =>
    rw [hl] at hnodup
    simp only [Option.getD_some] at hnodup
    simp [addRuleVersion, hl, hnodup, alookup_ainsert_self]

/-! ## C5: tag normalization -/

/-- C5 counterexample: `validate_tags` keeps duplicates — the stored tag
list for the supplied tags `["dup", "dup"]` is `["dup", "dup"]`, which is
not duplicate-free, refuting the claim that duplicates are removed. -/
theorem C5_counterexample :
    validate_tags ["dup", "dup"] = ["dup", "dup"] ∧
    ¬ (validate_tags ["dup", "dup"]).Nodup := by
  constructor
  · decide
  · decide

/-- C5 (amended): for every constructed rule the stored tag list contains
each string `t` exactly as often as the originally supplied tags contain
a non-blank tag whose lower-cased, stripped form is `t` — lower-casing,
stripping and dropping of blank tags as claimed, but duplicates are kept
(and order is preserved). -/
theorem C5_tags_normalized (v : List String) (t : String) :
    (validate_tags v).count t =
      (v.filter (fun s => pyStripStr s ≠ "" ∧ pyStripStr (pyLower s) = t)).length := by
  induction v with
  | nil => simp [validate_tags]
  | cons s v ih =>
    by_cases hs : pyStripStr s = ""
    · simp [validate_tags, hs, List.filter_cons] at ih ⊢
      exact ih
    · by_cases ht : pyStripStr (pyLower s) = t
      · simp [validate_tags, hs, ht, List.filter_cons, List.count_cons] at ih ⊢
        omega
      · simp [validate_tags, hs, ht, List.filter_cons, List.count_cons] at ih ⊢
        exact ih

/-! ## C6: duplicate version registration -/

/-- C6: registering a `(rule_id, version)` pair that already exists in
the version history returns failure without raising and changes neither
the version history nor the latest-version pointer (first conjunct,
result `(false, vm)` with the state returned untouched); and after a
fresh registration a second registration of the same rule is such a
rejected duplicate — it fails, leaves the state of the first
registration unchanged, and the history holds exactly one entry with
that version. -/
theorem C6_duplicate_version_rejected :
    (∀ (vm : VersionManager) (r : CursorRule),
      r.version ∈ ((alookup r.rule_id vm.version_history).getD []).map (·.version) →
      addRuleVersion vm r = (false, vm))
    ∧
    (∀ (vm : VersionManager) (r : CursorRule),
      r.version ∉ ((alookup r.rule_id vm.version_history).getD []).map (·.version) →
      (addRuleVersion (addRuleVersion vm r).2 r).1 = false ∧
      (addRuleVersion (addRuleVersion vm r).2 r).2 = (addRuleVersion vm r).2 ∧
      countVersionEntries (addRuleVersion vm r).2 r.rule_id r.version = 1) := by
  constructor
  · exact addRuleVersion_duplicate
  · intro vm r hnodup
    obtain ⟨-, hhist⟩ := addRuleVersion_success_history vm r hnodup
    have hperm :
        (sortByVersion (((alookup r.rule_id vm.version_history).getD []) ++ [r])).Perm
          (((alookup r.rule_id vm.version_history).getD []) ++ [r]) :=
      sortByVersion_perm _
    have hmem : r.version ∈
        ((alookup r.rule_id ((addRuleVersion vm r).2).version_history).getD []).map
          (·.version) := by
      rw [hhist]
      simp only [Option.getD_some, List.mem_map]
      exact ⟨r, hperm.mem_iff.mpr (by simp), rfl⟩
    have hdup := addRuleVersion_duplicate ((addRuleVersion vm r).2) r hmem
    refine ⟨by rw [hdup], by rw [hdup], ?_⟩
    have hzero : ∀ x ∈ ((alookup r.rule_id vm.version_history).getD []),
        ¬ (x.version = r.version) := by
      intro x hx hv
      exact hnodup (List.mem_map.mpr ⟨x, hx, hv⟩)
    unfold countVersionEntries
    rw [hhist]
    simp only [Option.getD_some]
    rw [← List.countP_eq_length_filter, hperm.countP_eq, List.countP_append]
    rw [List.countP_eq_zero.mpr (by simpa using hzero)]
    simp

/-- C6 witness: the duplicate-rejection theorem applied to the sample
rule at version 1.0.0 over the empty version manager. -/
theorem C6_witness :
    (addRuleVersion (addRuleVersion VersionManager.empty ruleA100).2 ruleA100).1 = false ∧
    (addRuleVersion (addRuleVersion VersionManager.empty ruleA100).2 ruleA100).2 =
      (addRuleVersion VersionManager.empty ruleA100).2 ∧
    countVersionEntries (addRuleVersion VersionManager.empty ruleA100).2
      ruleA100.rule_id ruleA100.version = 1 :=
  C6_duplicate_version_rejected.2 VersionManager.empty ruleA100 (by decide)

/-! ## C7: latest-version resolution -/

/-- C7: after registering versions 1.0.0, 1.2.0 and 1.1.0 of `CR-V` in
that order, the latest-version lookup returns the 1.2.0 rule; and in
general, for an identifier with existing history and latest pointer, a
successful registration sets the latest pointer to the new version
exactly when it compares strictly newer (semantic-version order with
string-comparison fallback, `isNewerVersion`) than the previous latest,
and keeps the previous latest otherwise. -/
theorem C7_latest_version :
    (getLatestRule vm3 "CR-V" = some (rV "1.2.0"))
    ∧
    (∀ (vm : VersionManager) (r : CursorRule) (old : String),
      alookup r.rule_id vm.version_history ≠ none →
      alookup r.rule_id vm.latest_versions = some old →
      r.version ∉ ((alookup r.rule_id vm.version_history).getD []).map (·.version) →
      alookup r.rule_id ((addRuleVersion vm r).2).latest_versions =
        some (if isNewerVersion r.version old then r.version else old)) := by
  constructor
  · decide
  · intro vm r old hne hlat hnodup
    cases hl : alookup r.rule_id vm.version_history with
    | none => exact absurd hl hne
    | some hist =>
      rw [hl] at hnodup
      simp only [Option.getD_some] at hnodup
      by_cases hnew : isNewerVersion r.version old
      · simp [addRuleVersion, hl, hnodup, hlat, hnew, alookup_ainsert_self]
      · simp [addRuleVersion, hl, hnodup, hlat, hnew]

/-- C7 witness: registering version 2.0.0 on top of the sample history
updates the latest pointer per the comparison with the previous latest
1.2.0. -/
theorem C7_witness :
    alookup "CR-V" ((addRuleVersion vm3 (rV "2.0.0")).2).latest_versions =
      some (if isNewerVersion (rV "2.0.0").version "1.2.0"
            then (rV "2.0.0").version else "1.2.0") :=
  C7_latest_version.2 vm3 (rV "2.0.0") "1.2.0" (by decide) (by decide) (by decide)

/-! ## C1: explicit conflicts block the add -/

/-- C1 (amended): a candidate whose `conflicts_with` names the identifier
of a stored rule other than the candidate itself is rejected by
`add_rule` with the database state (rule map, version history and
indices) unchanged; and without any error-severity conflict the conflict
check never blocks — the outcome of `add_rule` is exactly the outcome of
the version-manager registration. -/
theorem C1_conflict_blocking :
    (∀ (db : RuleDatabase) (rule other : CursorRule),
      other ∈ db.rules.map (·.2) →
      other.rule_id ≠ rule.rule_id →
      other.rule_id ∈ rule.conflicts_with →
      addRule db rule = (false, db))
    ∧
    (∀ (db : RuleDatabase) (rule : CursorRule),
      (∀ c ∈ detectConflicts rule (db.rules.map (·.2)), c.severity ≠ "error") →
      (addRule db rule).1 = (addRuleVersion db.version_manager rule).1) := by
  constructor
  · intro db rule other hmem hne hcw
    have hrec : (⟨"explicit_conflict", other.rule_id, "error"⟩ : ConflictRecord) ∈
        detectConflicts rule (db.rules.map (·.2)) := by
      unfold detectConflicts
      refine List.mem_flatMap.mpr ⟨other, List.mem_filter.mpr ⟨hmem, by simpa using hne⟩, ?_⟩
      unfold conflictsWithOther
      simp [hcw]
    have hany : (detectConflicts rule (db.rules.map (·.2))).any
        (fun c => c.severity = "error") = true :=
      List.any_eq_true.mpr ⟨_, hrec, by simp⟩
    simp [addRule, hany]
  · intro db rule hall
    have hany : (detectConflicts rule (db.rules.map (·.2))).any
        (fun c => c.severity = "error") = false := by
      rw [List.any_eq_false]
      intro c hc
      simpa using hall c hc
    rcases hv : addRuleVersion db.version_manager rule with ⟨ok, vm⟩
    cases ok <;> simp [addRule, hany, hv]

/-- C1 counterexample: the conflict scan skips entries carrying the
candidate's own identifier, so a candidate naming its own id — which a
stored rule carries — is not blocked: the add succeeds and the candidate
replaces the stored rule in the active map, refuting the claim for
conflicts_with entries that name an existing rule via the candidate's
own identifier. -/
theorem C1_counterexample :
    (alookup "CR-A" dbA.rules).isSome ∧
    "CR-A" ∈ ruleSelfConf.conflicts_with ∧
    (addRule dbA ruleSelfConf).1 = true ∧
    alookup "CR-A" (addRule dbA ruleSelfConf).2.rules = some ruleSelfConf := by
  exact ⟨by decide, by decide, by decide, by decide⟩

/-- C1 witness: the blocking theorem applied to a stored rule `CR-A` and
a fresh candidate conflicting with it, and the non-blocking conjunct
applied to a conflict-free candidate. -/
theorem C1_witness :
    addRule dbA ruleConfA = (false, dbA) ∧
    (addRule dbA ruleB).1 = (addRuleVersion dbA.version_manager ruleB).1 :=
  ⟨C1_conflict_blocking.1 dbA ruleConfA ruleA100 (by decide) (by decide) (by decide),
   C1_conflict_blocking.2 dbA ruleB (by decide)⟩

/-! ## C4: index membership and the active flag -/

theorem mem_sadd (x y : String) (s : List String) :
    x ∈ sadd y s ↔ (x ∈ s ∨ x = y) := by
  unfold sadd
  by_cases h : y ∈ s
  · simp only [if_pos h]
    constructor
    · exact Or.inl
    · rintro (hx | rfl)
      · exact hx
      · exact h
  · simp [if_neg h]

theorem mem_bucketAdd (k' id' k id : String) (m : List (String × List String)) :
    id' ∈ (alookup k' (bucketAdd k id m)).getD [] ↔
      ((k' = k ∧ id' = id) ∨ id' ∈ (alookup k' m).getD []) := by
  unfold bucketAdd
  by_cases h : k' = k
  · subst h
    rw [alookup_ainsert_self]
    simp only [Option.getD_some, mem_sadd]
    tauto
  · rw [alookup_ainsert_ne _ _ _ _ h]
    simp [h]

theorem mem_bucketAddAll (keys : List String) (id k' id' : String)
    (m : List (String × List String)) :
    id' ∈ (alookup k' (bucketAddAll keys id m)).getD [] ↔
      ((k' ∈ keys ∧ id' = id) ∨ id' ∈ (alookup k' m).getD []) := by
  induction keys generalizing m with
  | nil => simp [bucketAddAll]
  | cons key keys ih =>
    unfold bucketAddAll at ih ⊢
    simp only [List.foldl_cons]
    rw [ih, mem_bucketAdd]
    simp only [List.mem_cons]
    tauto

theorem alookup_eq_some_iff_mem (m : List (String × CursorRule))
    (hnd : (m.map (·.1)).Nodup) (k : String) (v : CursorRule) :
    alookup k m = some v ↔ (k, v) ∈ m := by
  induction m with
  | nil => simp [alookup]
  | cons p m ih =>
    obtain ⟨k₀, v₀⟩ := p
    simp only [List.map_cons, List.nodup_cons] at hnd
    by_cases h : k₀ = k
    · rw [show alookup k ((k₀, v₀) :: m) = some v₀ by simp [alookup, h]]
      simp only [Option.some.injEq, List.mem_cons, Prod.mk.injEq]
      constructor
      · rintro rfl
        exact Or.inl ⟨h.symm, rfl⟩
      · rintro (⟨-, rfl⟩ | hm)
        · rfl
        · exact absurd (List.mem_map.mpr ⟨_, hm, rfl⟩) (h ▸ hnd.1)
    · simp only [alookup, if_neg h, ih hnd.2, List.mem_cons, Prod.mk.injEq]
      constructor
      · exact Or.inr
      · rintro (⟨rfl, -⟩ | hm)
        · exact absurd rfl h
        · exact hm

theorem buildIndexes_languages_aux (entries : List (String × CursorRule))
    (idx : RuleIndex) (lang id : String) :
    id ∈ (alookup lang (entries.foldl indexRule idx).languages).getD [] ↔
      ((∃ p ∈ entries, p.1 = id ∧ lang ∈ p.2.languages) ∨
        id ∈ (alookup lang idx.languages).getD []) := by
  induction entries generalizing idx with
  | nil => simp
  | cons e rest ih =>
    obtain ⟨k, r⟩ := e
    simp only [List.foldl_cons]
    rw [ih]
    have hfld : (indexRule idx (k, r)).languages = bucketAddAll r.languages k idx.languages := rfl
    rw [hfld, mem_bucketAddAll]
    simp only [List.mem_cons]
    constructor
    · rintro (⟨p, hp, hpid, hl⟩ | (⟨hl, hidk⟩ | hm))
      · exact Or.inl ⟨p, Or.inr hp, hpid, hl⟩
      · exact Or.inl ⟨(k, r), Or.inl rfl, hidk.symm, hl⟩
      · exact Or.inr hm
    · rintro (⟨p, (hpe | hp), hpid, hl⟩ | hm)
      · subst hpe
        exact Or.inr (Or.inl ⟨hl, hpid.symm⟩)
      · exact Or.inl ⟨p, hp, hpid, hl⟩
      · exact Or.inr (Or.inr hm)

theorem buildIndexes_domains_aux (entries : List (String × CursorRule))
    (idx : RuleIndex) (dom id : String) :
    id ∈ (alookup dom (entries.foldl indexRule idx).domains).getD [] ↔
      ((∃ p ∈ entries, p.1 = id ∧ dom ∈ p.2.domains) ∨
        id ∈ (alookup dom idx.domains).getD []) := by
  induction entries generalizing idx with
  | nil => simp
  | cons e rest ih =>
    obtain ⟨k, r⟩ := e
    simp only [List.foldl_cons]
    rw [ih]
    have hfld : (indexRule idx (k, r)).domains = bucketAddAll r.domains k idx.domains := rfl
    rw [hfld, mem_bucketAddAll]
    simp only [List.mem_cons]
    constructor
    · rintro (⟨p, hp, hpid, hl⟩ | (⟨hl, hidk⟩ | hm))
      · exact Or.inl ⟨p, Or.inr hp, hpid, hl⟩
      · exact Or.inl ⟨(k, r), Or.inl rfl, hidk.symm, hl⟩
      · exact Or.inr hm
    · rintro (⟨p, (hpe | hp), hpid, hl⟩ | hm)
      · subst hpe
        exact Or.inr (Or.inl ⟨hl, hpid.symm⟩)
      · exact Or.inl ⟨p, hp, hpid, hl⟩
      · exact Or.inr (Or.inr hm)

theorem buildIndexes_tags_aux (entries : List (String × CursorRule))
    (idx : RuleIndex) (tag id : String) :
    id ∈ (alookup tag (entries.foldl indexRule idx).tags).getD [] ↔
      ((∃ p ∈ entries, p.1 = id ∧ tag ∈ p.2.tags) ∨
        id ∈ (alookup tag idx.tags).getD []) := by
  induction entries generalizing idx with
  | nil => simp
  | cons e rest ih =>
    obtain ⟨k, r⟩ := e
    simp only [List.foldl_cons]
    rw [ih]
    have hfld : (indexRule idx (k, r)).tags = bucketAddAll r.tags k idx.tags := rfl
    rw [hfld, mem_bucketAddAll]
    simp only [List.mem_cons]
    constructor
    · rintro (⟨p, hp, hpid, hl⟩ | (⟨hl, hidk⟩ | hm))
      · exact Or.inl ⟨p, Or.inr hp, hpid, hl⟩
      · exact Or.inl ⟨(k, r), Or.inl rfl, hidk.symm, hl⟩
      · exact Or.inr hm
    · rintro (⟨p, (hpe | hp), hpid, hl⟩ | hm)
      · subst hpe
        exact Or.inr (Or.inl ⟨hl, hpid.symm⟩)
      · exact Or.inl ⟨p, hp, hpid, hl⟩
      · exact Or.inr (Or.inr hm)

theorem buildIndexes_types_aux (entries : List (String × CursorRule))
    (idx : RuleIndex) (t id : String) :
    id ∈ (alookup t (entries.foldl indexRule idx).types).getD [] ↔
      ((∃ p ∈ entries, p.1 = id ∧ p.2.rule_type.value = t) ∨
        id ∈ (alookup t idx.types).getD []) := by
  induction entries generalizing idx with
  | nil => simp
  | cons e rest ih =>
    obtain ⟨k, r⟩ := e
    simp only [List.foldl_cons]
    rw [ih]
    have hfld : (indexRule idx (k, r)).types = bucketAdd r.rule_type.value k idx.types := rfl
    rw [hfld, mem_bucketAdd]
    simp only [List.mem_cons]
    constructor
    · rintro (⟨p, hp, hpid, hl⟩ | (⟨hl, hidk⟩ | hm))
      · exact Or.inl ⟨p, Or.inr hp, hpid, hl⟩
      · exact Or.inl ⟨(k, r), Or.inl rfl, hidk.symm, hl.symm⟩
      · exact Or.inr hm
    · rintro (⟨p, (hpe | hp), hpid, hl⟩ | hm)
      · subst hpe
        exact Or.inr (Or.inl ⟨hl.symm, hpid.symm⟩)
      · exact Or.inl ⟨p, hp, hpid, hl⟩
      · exact Or.inr (Or.inr hm)

/-- C4 counterexample: `_build_indexes` applies no `active` filter, so an
inactive rule placed in the rule map by the load path (`load_rules`
stores every deserialized rule unconditionally) appears in the language
bucket after a rebuild while its stored `active` flag is `false`,
refuting the claim that only active rules participate in the indices. -/
theorem C4_counterexample :
    "CR-INACT" ∈ (alookup "python" (buildIndexes dbInact.rules).languages).getD [] ∧
    (alookup "CR-INACT" dbInact.rules).map (·.active) = some false := by
  exact ⟨by decide, by decide⟩

/-- C4 (amended): after a rebuild the indices cover exactly the rules
present in the main rule map, active or not — a rule identifier appears
in a language/domain/type/tag bucket exactly when the map stores a rule
under that identifier carrying that key (first conjunct, for a map with
duplicate-free keys as the source maintains); every successfully
registered version remains retrievable by explicit identifier+version
lookup regardless of its active flag (second conjunct); and `add_rule`
itself never places an inactive rule in the main map (third conjunct) —
only the disk-load path can, which is how inactive rules reach the
indices. -/
theorem C4_index_membership :
    (∀ (rules : List (String × CursorRule)), (rules.map (·.1)).Nodup →
      ∀ (id : String),
      ((∀ lang, id ∈ (alookup lang (buildIndexes rules).languages).getD [] ↔
          ∃ r, alookup id rules = some r ∧ lang ∈ r.languages) ∧
       (∀ dom, id ∈ (alookup dom (buildIndexes rules).domains).getD [] ↔
          ∃ r, alookup id rules = some r ∧ dom ∈ r.domains) ∧
       (∀ t, id ∈ (alookup t (buildIndexes rules).types).getD [] ↔
          ∃ r, alookup id rules = some r ∧ r.rule_type.value = t) ∧
       (∀ tag, id ∈ (alookup tag (buildIndexes rules).tags).getD [] ↔
          ∃ r, alookup id rules = some r ∧ tag ∈ r.tags)))
    ∧
    (∀ (vm : VersionManager) (r : CursorRule),
      (addRuleVersion vm r).1 = true →
      getRuleVersion (addRuleVersion vm r).2 r.rule_id r.version = some r)
    ∧
    (∀ (db : RuleDatabase) (r : CursorRule), r.active = false →
      ((addRule db r).2).rules = db.rules) := by
  refine ⟨?_, ?_, ?_⟩
  · intro rules hnd id
    have hbridge : ∀ (P : CursorRule → Prop),
        (∃ p ∈ rules, p.1 = id ∧ P p.2) ↔ (∃ r, alookup id rules = some r ∧ P r) := by
      intro P
      constructor
      · rintro ⟨⟨k, r⟩, hp, hk, hP⟩
        exact ⟨r, (alookup_eq_some_iff_mem rules hnd id r).mpr (hk ▸ hp), hP⟩
      · rintro ⟨r, hl, hP⟩
        exact ⟨(id, r), (alookup_eq_some_iff_mem rules hnd id r).mp hl, rfl, hP⟩
    refine ⟨fun lang => ?_, fun dom => ?_, fun t => ?_, fun tag => ?_⟩
    · rw [show buildIndexes rules = rules.foldl indexRule ⟨[], [], [], []⟩ from rfl,
        buildIndexes_languages_aux]
      simpa [alookup] using hbridge (fun r => lang ∈ r.languages)
    · rw [show buildIndexes rules = rules.foldl indexRule ⟨[], [], [], []⟩ from rfl,
        buildIndexes_domains_aux]
      simpa [alookup] using hbridge (fun r => dom ∈ r.domains)
    · rw [show buildIndexes rules = rules.foldl indexRule ⟨[], [], [], []⟩ from rfl,
        buildIndexes_types_aux]
      simpa [alookup] using hbridge (fun r => r.rule_type.value = t)
    · rw [show buildIndexes rules = rules.foldl indexRule ⟨[], [], [], []⟩ from rfl,
        buildIndexes_tags_aux]
      simpa [alookup] using hbridge (fun r => tag ∈ r.tags)
  · intro vm r hok
    by_cases hdup : r.version ∈ ((alookup r.rule_id vm.version_history).getD []).map (·.version)
    · rw [addRuleVersion_duplicate vm r hdup] at hok
      simp at hok
    · obtain ⟨-, hhist⟩ := addRuleVersion_success_history vm r hdup
      unfold getRuleVersion
      rw [hhist]
      have hperm := sortByVersion_perm (((alookup r.rule_id vm.version_history).getD []) ++ [r])
      refine find?_unique (hperm.mem_iff.mpr (by simp)) (by simp) ?_
      intro x hx hpx
      rcases List.mem_append.mp (hperm.mem_iff.mp hx) with hxh | hxr
      · exfalso
        exact hdup (List.mem_map.mpr ⟨x, hxh, by simpa using hpx⟩)
      · simpa using hxr
  · intro db r hact
    cases hany : (detectConflicts r (db.rules.map (·.2))).any (fun c => c.severity = "error") with
    | true => simp [addRule, hany]
    | false =>
      rcases hv : addRuleVersion db.version_manager r with ⟨ok, vm⟩
      cases ok <;> simp [addRule, hany, hv, hact]

/-- C4 witness: the bucket characterization, version retrievability and
inactive-add conjuncts applied to the inactive sample rule. -/
theorem C4_witness :
    ("CR-INACT" ∈ (alookup "python" (buildIndexes dbInact.rules).languages).getD [] ↔
      ∃ r, alookup "CR-INACT" dbInact.rules = some r ∧ "python" ∈ r.languages) ∧
    getRuleVersion (addRuleVersion VersionManager.empty inactiveRule).2
      inactiveRule.rule_id inactiveRule.version = some inactiveRule ∧
    ((addRule RuleDatabase.empty inactiveRule).2).rules = RuleDatabase.empty.rules :=
  ⟨((C4_index_membership.1 dbInact.rules (by decide) "CR-INACT").1) "python",
   C4_index_membership.2.1 VersionManager.empty inactiveRule (by decide),
   C4_index_membership.2.2 RuleDatabase.empty inactiveRule (by decide)⟩

/-! ## C8: relevance-score formula -/

/-- C8: for every rule with at least one condition and every filter
whose query is non-blank, the relevance score equals the weighted sum of
the claim — average condition priority times 0.1, plus 3.0 for a
case-insensitive query hit in the name, 2.0 for one in the description,
1.5 per condition whose guideline contains the query, 2.0 per shared
tag, 1.5 per matching language, 1.5 per matching domain and 1.0 per
matching content type — the whole sum multiplied by
`0.5 + 0.5 * success_rate`. -/
theorem C8_relevance_score (rule : CursorRule) (f : SearchFilter)
    (hrules : rule.rules ≠ []) (hquery : f.query ≠ "") :
    calculateRuleScore rule f =
      (prioritySum rule.rules / (rule.rules.length : ℚ) * (1 / 10)
        + (if strHasSub (pyLower f.query) (pyLower rule.name) then 3 else 0)
        + (if strHasSub (pyLower f.query) (pyLower rule.description) then 2 else 0)
        + (3 / 2) * ((rule.rules.filter
            (fun c => strHasSub (pyLower f.query) (pyLower c.guideline))).length : ℚ)
        + 2 * (commonCount f.tags rule.tags : ℚ)
        + (3 / 2) * (commonCount f.languages rule.languages : ℚ)
        + (3 / 2) * (commonCount f.domains rule.domains : ℚ)
        + 1 * (commonCount f.content_types (rule.content_types.map ContentType.value) : ℚ))
      * (1 / 2 + (1 / 2) * rule.success_rate) := by
  unfold calculateRuleScore
  simp only [if_pos hrules, if_neg, hquery, ne_eq, not_false_eq_true, if_true]
  have hc0 : ∀ b : List String, commonCount [] b = 0 := fun b => rfl
  by_cases ht : f.tags = [] <;> by_cases hl : f.languages = [] <;>
    by_cases hd : f.domains = [] <;> by_cases hc : f.content_types = [] <;>
      simp only [ht, hl, hd, hc, hc0, if_pos, if_neg, ite_true, ite_false,
        ne_eq, not_true_eq_false, not_false_eq_true, Nat.cast_zero] <;>
      split_ifs <;> ring

/-- C8 witness: the score formula applied to the sample rule and filter
(two conditions, non-blank query, matching tag and language). -/
theorem C8_witness :
    calculateRuleScore scoreRule scoreFilter =
      (prioritySum scoreRule.rules / (scoreRule.rules.length : ℚ) * (1 / 10)
        + (if strHasSub (pyLower scoreFilter.query) (pyLower scoreRule.name) then 3 else 0)
        + (if strHasSub (pyLower scoreFilter.query) (pyLower scoreRule.description) then 2 else 0)
        + (3 / 2) * ((scoreRule.rules.filter
            (fun c => strHasSub (pyLower scoreFilter.query) (pyLower c.guideline))).length : ℚ)
        + 2 * (commonCount scoreFilter.tags scoreRule.tags : ℚ)
        + (3 / 2) * (commonCount scoreFilter.languages scoreRule.languages : ℚ)
        + (3 / 2) * (commonCount scoreFilter.domains scoreRule.domains : ℚ)
        + 1 * (commonCount scoreFilter.content_types
            (scoreRule.content_types.map ContentType.value) : ℚ))
      * (1 / 2 + (1 / 2) * scoreRule.success_rate) :=
  C8_relevance_score scoreRule scoreFilter (by decide) (by decide)

/-! ## C9: failed updates mutate the input rule -/

theorem digitChar_facts :
    ∀ d, d < 10 → ((Nat.digitChar d).toNat - 48 = d ∧
      isDigitChar (Nat.digitChar d) = true ∧ Nat.digitChar d ≠ '.') := by
  decide

theorem foldl_digit_chars (ds : List ℕ) (hds : ∀ d ∈ ds, d < 10) (a : ℕ) :
    List.foldl (fun acc c => 10 * acc + (c.toNat - 48)) a
      ((ds.reverse).map Nat.digitChar) =
      a * 10 ^ ds.length + Nat.ofDigits 10 ds := by
  induction ds generalizing a with
  | nil => simp [Nat.ofDigits_nil]
  | cons d tl ih =>
    have hd : d < 10 := hds d (List.mem_cons_self d tl)
    have htl : ∀ x ∈ tl, x < 10 := fun x hx => hds x (List.mem_cons_of_mem _ hx)
    simp only [List.reverse_cons, List.map_append, List.map_cons, List.map_nil,
      List.foldl_append, List.foldl_cons, List.foldl_nil]
    rw [ih htl, (digitChar_facts d hd).1, Nat.ofDigits_cons, List.length_cons,
      pow_succ]
    ring

theorem charsVal_natChars (n : ℕ) : charsVal (natChars n) = n := by
  by_cases h0 : n = 0
  · subst h0
    decide
  · unfold natChars charsVal
    rw [if_neg h0]
    have := foldl_digit_chars (Nat.digits 10 n)
      (fun d hd => Nat.digits_lt_base (by norm_num) hd) 0
    simpa [Nat.ofDigits_digits] using this

theorem natChars_ne_nil (n : ℕ) : natChars n ≠ [] := by
  unfold natChars
  by_cases h0 : n = 0
  · simp [h0]
  · simp only [if_neg h0, ne_eq, List.map_eq_nil_iff, List.reverse_eq_nil_iff]
    exact Nat.digits_ne_nil_iff_ne_zero.mpr h0

theorem natChars_all_digit (n : ℕ) :
    ∀ c ∈ natChars n, isDigitChar c = true ∧ c ≠ '.' := by
  intro c hc
  unfold natChars at hc
  by_cases h0 : n = 0
  · rw [if_pos h0] at hc
    simp only [List.mem_singleton] at hc
    subst hc
    exact ⟨by decide, by decide⟩
  · rw [if_neg h0] at hc
    obtain ⟨d, hd, rfl⟩ := List.mem_map.mp hc
    have hdd : d < 10 :=
      Nat.digits_lt_base (by norm_num) (List.mem_reverse.mp hd)
    exact ⟨(digitChar_facts d hdd).2.1, (digitChar_facts d hdd).2.2⟩

theorem splitOnChar_ne_nil (sep : Char) (l : List Char) :
    splitOnChar sep l ≠ [] := by
  induction l with
  | nil => simp [splitOnChar]
  | cons c cs ih =>
    unfold splitOnChar
    by_cases h : c = sep
    · simp [h]
    · simp only [if_neg h]
      cases hs : splitOnChar sep cs <;> simp

theorem splitOnChar_no_sep (sep : Char) (l : List Char) (h : sep ∉ l) :
    splitOnChar sep l = [l] := by
  induction l with
  | nil => rfl
  | cons c cs ih =>
    have hc : ¬ (c = sep) := fun hh => h (hh ▸ List.mem_cons_self c cs)
    have hcs : sep ∉ cs := fun hh => h (List.mem_cons_of_mem _ hh)
    unfold splitOnChar
    rw [if_neg hc, ih hcs]

theorem splitOnChar_append (sep : Char) (xs ys : List Char) (h : sep ∉ xs) :
    splitOnChar sep (xs ++ sep :: ys) = xs :: splitOnChar sep ys := by
  induction xs with
  | nil => simp [splitOnChar]
  | cons x xs ih =>
    have hx : ¬ (x = sep) := fun hh => h (hh ▸ List.mem_cons_self x xs)
    have hxs : sep ∉ xs := fun hh => h (List.mem_cons_of_mem _ hh)
    simp only [List.cons_append]
    conv_lhs => unfold splitOnChar
    rw [if_neg hx, ih hxs]

theorem parseComponent_natChars (n : ℕ) :
    parseComponent (natChars n) = some n := by
  unfold parseComponent
  rw [if_pos ⟨natChars_ne_nil n,
    List.all_eq_true.mpr (fun c hc => (natChars_all_digit n c hc).1)⟩]
  exact congrArg some (charsVal_natChars n)

theorem parseVersion_bumpString (k : List Nat) :
    parseVersion (bumpVersionString k) = some (bumpKey k) := by
  unfold parseVersion bumpVersionString bumpKey
  have htl : (String.mk (natChars (k.getD 0 0) ++ '.' :: natChars (k.getD 1 0) ++
      '.' :: natChars (k.getD 2 0 + 1))).toList =
      natChars (k.getD 0 0) ++ '.' :: (natChars (k.getD 1 0) ++
        '.' :: natChars (k.getD 2 0 + 1)) := by
    simp
  rw [htl,
    splitOnChar_append '.' _ _ (fun hh => ((natChars_all_digit _ _ hh).2 rfl)),
    splitOnChar_append '.' _ _ (fun hh => ((natChars_all_digit _ _ hh).2 rfl)),
    splitOnChar_no_sep '.' _ (fun hh => ((natChars_all_digit _ _ hh).2 rfl))]
  simp [parseComponent_natChars]

theorem parseVersion_ne_nil (s : String) (k : List Nat)
    (h : parseVersion s = some k) : k ≠ [] := by
  rintro rfl
  simp [parseVersion] at h
  exact splitOnChar_ne_nil '.' s.toList h.2

theorem versionLt_bumpKey (k : List Nat) (hk : k ≠ []) :
    versionLt k (bumpKey k) = true := by
  rcases k with _ | ⟨a, _ | ⟨b, _ | ⟨c, rest⟩⟩⟩
  · exact absurd rfl hk
  · simp [versionLt, bumpKey, allZeroKey]
  · simp [versionLt, bumpKey, allZeroKey]
  · simp [versionLt, bumpKey, allZeroKey, Nat.lt_succ_self]

theorem isNewerVersion_bumpString (cur : String) (k : List Nat)
    (h : parseVersion cur = some k) :
    isNewerVersion (bumpVersionString k) cur = true := by
  unfold isNewerVersion
  rw [parseVersion_bumpString, h]
  exact versionLt_bumpKey k (parseVersion_ne_nil cur k h)

/-- C9: when `update_rule` is called for an identifier whose registered
latest version parses, the caller's rule object is mutated before the
add is attempted — its version is rewritten to
`{major}.{minor}.{micro+1}` of the previous latest (which compares
strictly newer than that latest) and its `updated_at` is rewritten to
the current time — and when the subsequent `add_rule` fails the database
is left unchanged while those mutations persist: the failed update is
not atomic with respect to the input object. -/
theorem C9_update_rule_not_atomic (now : Nat) (db : RuleDatabase)
    (rule : CursorRule) (cur : String) (k : List Nat)
    (hcur : alookup rule.rule_id db.version_manager.latest_versions = some cur)
    (hk : parseVersion cur = some k) :
    (updateRule now db rule).2.1.version = bumpVersionString k ∧
    (updateRule now db rule).2.1.updated_at = now ∧
    isNewerVersion (updateRule now db rule).2.1.version cur = true ∧
    ((updateRule now db rule).1 = false → (updateRule now db rule).2.2 = db) := by
  have hstep : updateRule now db rule =
      ((addRule db { rule with version := bumpVersionString k, updated_at := now }).1,
       { rule with version := bumpVersionString k, updated_at := now },
       (addRule db { rule with version := bumpVersionString k, updated_at := now }).2) := by
    unfold updateRule
    simp only [hcur, hk]
  rw [hstep]
  refine ⟨rfl, rfl, isNewerVersion_bumpString cur k hk, ?_⟩
  intro hfail
  exact addRule_false_unchanged db _ hfail

/-- C9 witness: updating `CR-A` (latest 1.0.0) with a candidate that has
an error-severity conflict with the stored `CR-B`: the add fails, yet
the returned rule object carries the bumped version 1.0.1 and the new
timestamp, and the database is unchanged. -/
theorem C9_witness :
    (updateRule 999 dbAB updCand).2.1.version = bumpVersionString [1, 0, 0] ∧
    (updateRule 999 dbAB updCand).2.1.updated_at = 999 ∧
    isNewerVersion (updateRule 999 dbAB updCand).2.1.version "1.0.0" = true ∧
    ((updateRule 999 dbAB updCand).1 = false → (updateRule 999 dbAB updCand).2.2 = dbAB) ∧
    (updateRule 999 dbAB updCand).1 = false := by
  refine ⟨?_, ?_, ?_, ?_, ?_⟩
  · exact (C9_update_rule_not_atomic 999 dbAB updCand "1.0.0" [1, 0, 0]
      (by decide) (by decide)).1
  · exact (C9_update_rule_not_atomic 999 dbAB updCand "1.0.0" [1, 0, 0]
      (by decide) (by decide)).2.1
  · exact (C9_update_rule_not_atomic 999 dbAB updCand "1.0.0" [1, 0, 0]
      (by decide) (by decide)).2.2.1
  · exact (C9_update_rule_not_atomic 999 dbAB updCand "1.0.0" [1, 0, 0]
      (by decide) (by decide)).2.2.2
  · decide

/-! ## C2: continuation-mode import is broken -/

/-- C2 (code bug): for a document carrying the `"[...]"` truncation
marker in a nested field, the non-continuation import fails with the
distinct truncation error as claimed; but with continuation mode on and
the target rule already stored, the import does not succeed by merging —
it fails with the `AttributeError` of the missing
`RuleDatabase.get_rule_by_id` (and missing `_merge_rule_content`), so the
second half of the claim is false on the code. -/
theorem C2_append_mode_broken :
    importContent dbX (.vdict truncDoc) false false =
      .error (.truncationDetected "guideline") ∧
    (alookup "CR-X-1" dbX.rules).isSome ∧
    importContent dbX (.vdict truncDoc) true true = .error .attributeError := by
  have h1 : checkTruncation "CR-X-1" = false := by decide
  have h2 : checkTruncation "X" = false := by decide
  have h3 : checkTruncation "partial content [...]" = true := by decide
  have hfind : findTruncationInDict truncDoc = some "guideline" := by
    simp [truncDoc, findTruncationInDict, h1, h2, h3]
  have hfalsy : yIsFalsy (.vdict truncDoc) = false := by decide
  have halook : alookup "rule_id" truncDoc = some (.str "CR-X-1") := rfl
  refine ⟨?_, by decide, ?_⟩
  · simp [importContent, hfalsy, hfind]
  · simp only [importContent, hfalsy, hfind, halook, yIsFalsy]
    simp [truncDoc]

/-! ## C3: section synthesis is dead code -/

set_option maxRecDepth 20000 in
/-- C3 (code bug): the sample body holds a qualifying core section
(first conjunct), but the parsed-content mapping carries the sections
under the key `sections` while the synthesis reads `main_sections`
(second conjunct, always empty), so the synthesis yields the single
full-content fallback condition rather than one condition per retained
section (third conjunct); the dead section branch would have produced
exactly the claimed `"**{title}**\n\n{body}"` condition at priority
`8 - (level - 1)` (fourth conjunct); and the import of the document
fails outright in `_build_rule_data` with the `AttributeError` raised by
`_convert_task_types` (fifth conjunct). -/
theorem C3_section_synthesis_dead :
    coreSectionsOf (extractMainSections body3) =
      [⟨2, "Data Layout".toList, List.replicate 150 'b'⟩] ∧
    mainSectionsOf (parseMarkdownContent body3 RegexBlocks.noneFound) = [] ∧
    synthesizeRuleConditions md3 (parseMarkdownContent body3 RegexBlocks.noneFound) =
      [⟨"main_rule".toList, body3, 8, [], none⟩] ∧
    sectionConditions md3 0 (selectCoreSections (extractMainSections body3)) =
      [⟨"main_rule_2_1".toList,
        "**Data Layout**\n\n".toList ++ List.replicate 150 'b', 7, [], none⟩] ∧
    markdownParse 0 md3 body3 RegexBlocks.noneFound = .error .attributeError := by
  have hone : natChars 1 = ['1'] := by
    have h : Nat.digits 10 1 = [1] := by
      rw [Nat.digits_def' (by norm_num : (1 : ℕ) < 10) (by norm_num : 0 < 1)]
      simp
    unfold natChars
    rw [if_neg (by norm_num : (1 : ℕ) ≠ 0), h]
    decide
  have htwo : natChars 2 = ['2'] := by
    have h : Nat.digits 10 2 = [2] := by
      rw [Nat.digits_def' (by norm_num : (1 : ℕ) < 10) (by norm_num : 0 < 2)]
      simp
    unfold natChars
    rw [if_neg (by norm_num : (2 : ℕ) ≠ 0), h]
    decide
  refine ⟨by decide, rfl, by decide, ?_, rfl⟩
  have hsel : selectCoreSections (extractMainSections body3) =
      [⟨2, "Data Layout".toList, List.replicate 150 'b'⟩] := by decide
  rw [hsel]
  simp only [sectionConditions, htwo, hone]
  decide


/-! ## C10: fallback segmentation priorities -/

theorem paraA_cons : paraA = 'a' :: List.replicate 1099 'a' := rfl

theorem paraA_ne_nil : paraA ≠ [] := by
  rw [paraA_cons]
  exact List.cons_ne_nil _ _

theorem paraA_length : paraA.length = 1100 := by
  rw [show paraA = List.replicate 1100 'a' from rfl, List.length_replicate]

theorem paraA_no_nl : ∀ c ∈ paraA, c ≠ '\n' := by
  intro c hc
  rw [show paraA = List.replicate 1100 'a' from rfl] at hc
  rw [List.eq_of_mem_replicate hc]
  decide

theorem leadsWith_append_self (sep t : List Char) :
    leadsWith sep (sep ++ t) = true := by
  induction sep with
  | nil => rfl
  | cons c cs ih => simp [leadsWith, ih]

theorem splitAux_skip (sep xs ys acc) :
    splitAux sep (xs ++ ys) xs.length acc = splitAux sep ys 0 acc := by
  induction xs with
  | nil => rfl
  | cons x xs ih => simpa [splitAux] using ih

theorem splitAux_no_nl (p : List Char) (hp : ∀ c ∈ p, c ≠ '\n') (acc : List Char) :
    splitAux ['\n', '\n'] p 0 acc = [acc.reverse ++ p] := by
  induction p generalizing acc with
  | nil => simp [splitAux]
  | cons c cs ih =>
    have hc : c ≠ '\n' := hp c (List.mem_cons_self c cs)
    have hcs : ∀ x ∈ cs, x ≠ '\n' := fun x hx => hp x (List.mem_cons_of_mem _ hx)
    have hlw : leadsWith ['\n', '\n'] (c :: cs) = false := by
      simp [leadsWith, Ne.symm hc]
    simp only [splitAux, hlw, Bool.false_eq_true, if_false]
    rw [ih hcs]
    simp

theorem splitAux_segment (p rest acc : List Char) (hp : ∀ c ∈ p, c ≠ '\n') :
    splitAux ['\n', '\n'] (p ++ '\n' :: '\n' :: rest) 0 acc =
      (acc.reverse ++ p) :: splitAux ['\n', '\n'] rest 0 [] := by
  induction p generalizing acc with
  | nil =>
    have hlw : leadsWith ['\n', '\n'] ('\n' :: '\n' :: rest) = true :=
      leadsWith_append_self ['\n', '\n'] rest
    simp [splitAux, hlw]
  | cons c cs ih =>
    have hc : c ≠ '\n' := hp c (List.mem_cons_self c cs)
    have hcs : ∀ x ∈ cs, x ≠ '\n' := fun x hx => hp x (List.mem_cons_of_mem _ hx)
    have hlw : leadsWith ['\n', '\n'] (c :: (cs ++ '\n' :: '\n' :: rest)) = false := by
      simp [leadsWith, Ne.symm hc]
    simp only [List.cons_append, splitAux, List.append_eq, hlw, Bool.false_eq_true,
      if_false]
    rw [ih (c :: acc) hcs]
    simp

theorem splitAux_no_hash (s : List Char) (hs : ∀ c ∈ s, c = 'a' ∨ c = '\n')
    (acc : List Char) :
    splitAux ['\n', '#', '#'] s 0 acc = [acc.reverse ++ s] := by
  induction s generalizing acc with
  | nil => simp [splitAux]
  | cons c cs ih =>
    have hc := hs c (List.mem_cons_self c cs)
    have hcs : ∀ x ∈ cs, x = 'a' ∨ x = '\n' := fun x hx => hs x (List.mem_cons_of_mem _ hx)
    have hlw : leadsWith ['\n', '#', '#'] (c :: cs) = false := by
      rcases hc with rfl | rfl
      · simp [leadsWith]
      · cases cs with
        | nil => simp [leadsWith]
        | cons d ds =>
          rcases hcs d (List.mem_cons_self d ds) with rfl | rfl <;> simp [leadsWith]
    simp only [splitAux, hlw, Bool.false_eq_true, if_false]
    rw [ih hcs]
    simp

theorem nnJoin_two_step (n : Nat) :
    nnJoin (n + 2) = paraA ++ '\n' :: '\n' :: nnJoin (n + 1) := rfl

theorem nnJoin_chars : ∀ n, ∀ c ∈ nnJoin n, c = 'a' ∨ c = '\n' := by
  intro n
  induction n using Nat.strong_induction_on with
  | _ n ih =>
    match n with
    | 0 => intro c hc; simp [nnJoin] at hc
    | 1 =>
      intro c hc
      rw [show nnJoin 1 = paraA from rfl,
        show paraA = List.replicate 1100 'a' from rfl] at hc
      exact Or.inl (List.eq_of_mem_replicate hc)
    | n + 2 =>
      intro c hc
      rw [nnJoin_two_step, show paraA = List.replicate 1100 'a' from rfl] at hc
      rcases List.mem_append.mp hc with hcp | hcr
      · exact Or.inl (List.eq_of_mem_replicate hcp)
      · rcases List.mem_cons.mp hcr with rfl | hcr
        · exact Or.inr rfl
        · rcases List.mem_cons.mp hcr with rfl | hcr
          · exact Or.inr rfl
          · exact ih (n + 1) (by omega) c hcr

theorem split_nnJoin : ∀ n, 1 ≤ n →
    splitOnSeq ['\n', '\n'] (nnJoin n) = List.replicate n paraA := by
  intro n
  induction n using Nat.strong_induction_on with
  | _ n ih =>
    match n with
    | 0 => intro h0; omega
    | 1 =>
      intro _
      rw [show nnJoin 1 = paraA from rfl]
      unfold splitOnSeq
      rw [splitAux_no_nl paraA paraA_no_nl []]
      simp
    | n + 2 =>
      intro _
      rw [nnJoin_two_step]
      unfold splitOnSeq
      rw [splitAux_segment paraA (nnJoin (n + 1)) [] paraA_no_nl]
      rw [show splitAux ['\n', '\n'] (nnJoin (n + 1)) 0 [] =
          splitOnSeq ['\n', '\n'] (nnJoin (n + 1)) from rfl]
      rw [ih (n + 1) (by omega) (by omega)]
      simp [List.replicate_succ]

theorem nnJoin_length : ∀ n, 1 ≤ n →
    (nnJoin n).length = n * 1100 + (n - 1) * 2 := by
  intro n
  induction n using Nat.strong_induction_on with
  | _ n ih =>
    match n with
    | 0 => intro h0; omega
    | 1 =>
      intro _
      rw [show nnJoin 1 = paraA from rfl, paraA_length]
    | n + 2 =>
      intro _
      rw [nnJoin_two_step]
      simp only [List.length_append, List.length_cons, paraA_length]
      rw [ih (n + 1) (by omega) (by omega)]
      omega

theorem nnJoin_head : ∀ n, 1 ≤ n → ∃ t, nnJoin n = 'a' :: t := by
  intro n h
  match n with
  | 1 => exact ⟨List.replicate 1099 'a', by rw [show nnJoin 1 = paraA from rfl, paraA_cons]⟩
  | n + 2 =>
    refine ⟨List.replicate 1099 'a' ++ '\n' :: '\n' :: nnJoin (n + 1), ?_⟩
    rw [nnJoin_two_step, paraA_cons]
    rfl

theorem nnJoin_rev_head : ∀ n, 1 ≤ n → ∃ t, (nnJoin n).reverse = 'a' :: t := by
  intro n
  induction n using Nat.strong_induction_on with
  | _ n ih =>
    match n with
    | 0 => intro h0; omega
    | 1 =>
      intro _
      refine ⟨List.replicate 1099 'a', ?_⟩
      rw [show nnJoin 1 = paraA from rfl,
        show paraA = List.replicate 1100 'a' from rfl, List.reverse_replicate]
      rfl
    | n + 2 =>
      intro _
      obtain ⟨t, ht⟩ := ih (n + 1) (by omega) (by omega)
      refine ⟨t ++ '\n' :: '\n' :: paraA.reverse, ?_⟩
      rw [nnJoin_two_step]
      simp [List.reverse_append, ht]

theorem dropWhile_replicate_a (n : Nat) :
    List.dropWhile pyIsSpace (List.replicate n 'a') = List.replicate n 'a' := by
  cases n with
  | zero => rfl
  | succ n =>
    rw [List.replicate_succ, List.dropWhile_cons_of_neg (by decide)]

theorem pyStrip_paraA : pyStrip paraA = paraA := by
  unfold pyStrip
  rw [show paraA = List.replicate 1100 'a' from rfl, dropWhile_replicate_a,
    List.reverse_replicate, dropWhile_replicate_a, List.reverse_replicate]

theorem body10_ne_nil : body10 ≠ [] := by
  obtain ⟨t, ht⟩ := nnJoin_head 9 (by omega)
  rw [show body10 = nnJoin 9 from rfl, ht]
  exact List.cons_ne_nil _ _

theorem pyStrip_body10 : pyStrip body10 = body10 := by
  obtain ⟨t1, ht1⟩ := nnJoin_head 9 (by omega)
  obtain ⟨t2, ht2⟩ := nnJoin_rev_head 9 (by omega)
  rw [show body10 = nnJoin 9 from rfl]
  unfold pyStrip
  rw [ht1, List.dropWhile_cons_of_neg (by decide), ← ht1, ht2,
    List.dropWhile_cons_of_neg (by decide), ← ht2, List.reverse_reverse]

theorem body10_length : body10.length = 9916 := by
  have := nnJoin_length 9 (by omega)
  simpa using this

theorem greedyStep_pair (sep : List Char) (maxLength : Nat)
    (parts : List (List Char)) (current piece : List Char) :
    greedyStep sep maxLength (parts, current) piece =
      if current ≠ [] ∧ current.length + piece.length > maxLength then
        (parts ++ [pyStrip current], piece)
      else
        (parts, if current ≠ [] then current ++ sep ++ piece else piece) := rfl

theorem greedy_foldl_paras : ∀ (n : Nat) (parts : List (List Char)),
    List.foldl (greedyStep ['\n', '\n'] 2000) (parts, paraA) (List.replicate n paraA) =
      (parts ++ List.replicate n paraA, paraA) := by
  intro n
  induction n with
  | zero => intro parts; simp
  | succ n ih =>
    intro parts
    rw [List.replicate_succ, List.foldl_cons, greedyStep_pair,
      if_pos ⟨paraA_ne_nil, by rw [paraA_length]; omega⟩, pyStrip_paraA, ih]
    simp [List.append_assoc]

theorem greedyJoin_paras (n : Nat) :
    greedyJoin ['\n', '\n'] 2000 (List.replicate (n + 1) paraA) =
      List.replicate (n + 1) paraA := by
  unfold greedyJoin
  rw [List.replicate_succ, List.foldl_cons, greedyStep_pair, if_neg (by simp),
    if_neg (by simp), greedy_foldl_paras n []]
  simp only [List.nil_append, pyStrip_paraA, ne_eq]
  rw [if_pos paraA_ne_nil]
  rw [← List.replicate_succ', List.replicate_succ]

theorem splitCI_body10 :
    splitContentIntelligently body10 2000 = List.replicate 9 paraA := by
  unfold splitContentIntelligently
  rw [show splitOnSeq ['\n', '#', '#'] body10 = [body10] from by
    unfold splitOnSeq
    rw [splitAux_no_hash body10 (nnJoin_chars 9) []]
    rfl]
  simp only [List.map_nil]
  rw [show greedyJoin ['\n'] 2000 [body10] = [body10] from by
    unfold greedyJoin
    rw [List.foldl_cons, List.foldl_nil, greedyStep_pair, if_neg (by simp),
      if_neg (by simp)]
    simp only [pyStrip_body10, ne_eq]
    rw [if_pos body10_ne_nil]
    simp]
  simp only [List.flatMap_cons, List.flatMap_nil, List.append_nil, body10_length]
  have h1 : (9916 : Nat) > 2000 := by omega
  simp only [if_pos h1]
  rw [show splitOnSeq ['\n', '\n'] body10 = List.replicate 9 paraA from
    split_nnJoin 9 (by omega)]
  rw [show (9 : Nat) = 8 + 1 from rfl, greedyJoin_paras 8]
  rw [if_pos (by simp [List.replicate_succ])]

theorem chunkConditions_priorities (md : MdMetadata) :
    ∀ (parts : List (List Char)) (j : Nat),
    (chunkConditions md j parts).map (·.priority) =
      (List.range parts.length).map
        (fun i => md.priority.getD 8 - ((j + i : Nat) : Int)) := by
  intro parts
  induction parts with
  | nil => intro j; simp [chunkConditions]
  | cons p rest ih =>
    intro j
    simp only [chunkConditions, List.map_cons, List.length_cons,
      List.range_succ_eq_map, List.map_map]
    rw [ih (j + 1)]
    apply List.ext_getElem
    · simp
    · intro i h1 h2
      rcases i with _ | i <;> simp
      ring

/-- The long-content fallback branch of the condition synthesis, for any
parsed content with a non-blank body over 5000 characters, no parsed
examples and a non-empty chunk list. -/
theorem synthesize_long (md : MdMetadata) (content : ParsedContent)
    (h1 : pyStrip content.fullContent ≠ [])
    (h2 : content.fullContent.length > 5000)
    (h3 : content.parsedExamples = [])
    (h4 : chunkConditions md 0 (splitContentIntelligently content.fullContent 2000) ≠ []) :
    synthesizeRuleConditions md content =
      chunkConditions md 0 (splitContentIntelligently content.fullContent 2000) := by
  unfold synthesizeRuleConditions
  simp only [mainSectionsOf]
  rw [if_neg (not_not_intro rfl)]
  rw [if_pos rfl]
  rw [if_pos h1, if_pos h2]
  simp only []
  rw [h3]
  rcases hc : chunkConditions md 0 (splitContentIntelligently content.fullContent 2000)
    with _ | ⟨c0, crest⟩
  · exact absurd hc h4
  · rw [if_neg (List.cons_ne_nil c0 crest)]

/-- C10: the long-content fallback assigns chunk `i` (0-based) the
priority `metadata.get('priority', 8) - i` (first conjunct, for every
metadata and chunk list); the nine-paragraph heading-free sample body is
longer than 5000 characters and is split into nine (more than eight)
paragraph-bounded chunks; on it the condition synthesis takes exactly
the fallback-chunk path, the assigned priorities run from 8 down to 0 —
so one chunk falls below the condition model's minimum of 1 and is
rejected by the `RuleCondition` validator — and the import of the
document fails. -/
theorem C10_fallback_priorities :
    (∀ (md : MdMetadata) (parts : List (List Char)),
      (chunkConditions md 0 parts).map (·.priority) =
        (List.range parts.length).map (fun i : Nat => md.priority.getD 8 - (i : Int)))
    ∧ 5000 < body10.length
    ∧ splitContentIntelligently body10 2000 = List.replicate 9 paraA
    ∧ 8 < (splitContentIntelligently body10 2000).length
    ∧ synthesizeRuleConditions md10 (parseMarkdownContent body10 RegexBlocks.noneFound) =
        chunkConditions md10 0 (List.replicate 9 paraA)
    ∧ (synthesizeRuleConditions md10
        (parseMarkdownContent body10 RegexBlocks.noneFound)).map (·.priority) =
        [8, 7, 6, 5, 4, 3, 2, 1, 0]
    ∧ (∃ cd ∈ synthesizeRuleConditions md10 (parseMarkdownContent body10 RegexBlocks.noneFound),
        mkRuleCondition cd = Except.error PyErr.validationError)
    ∧ markdownParse 0 md10 body10 RegexBlocks.noneFound =
        Except.error PyErr.attributeError := by
  have hcp : ∀ (md : MdMetadata) (parts : List (List Char)),
      (chunkConditions md 0 parts).map (·.priority) =
        (List.range parts.length).map (fun i : Nat => md.priority.getD 8 - (i : Int)) := by
    intro md parts
    rw [chunkConditions_priorities md parts 0]
    apply List.map_congr_left
    intro i _
    simp
  have hnonempty : chunkConditions md10 0 (List.replicate 9 paraA) ≠ [] := by
    rw [show (9 : Nat) = 8 + 1 from rfl, List.replicate_succ]
    simp [chunkConditions]
  have hfc : (parseMarkdownContent body10 RegexBlocks.noneFound).fullContent = body10 := rfl
  have hpe : (parseMarkdownContent body10 RegexBlocks.noneFound).parsedExamples = [] := rfl
  have h1 : pyStrip (parseMarkdownContent body10 RegexBlocks.noneFound).fullContent ≠ [] := by
    rw [hfc, pyStrip_body10]; exact body10_ne_nil
  have h2 : (parseMarkdownContent body10 RegexBlocks.noneFound).fullContent.length > 5000 := by
    rw [hfc, body10_length]; omega
  have h4 : chunkConditions md10 0 (splitContentIntelligently
      (parseMarkdownContent body10 RegexBlocks.noneFound).fullContent 2000) ≠ [] := by
    rw [hfc, splitCI_body10]; exact hnonempty
  have hsynth : synthesizeRuleConditions md10
      (parseMarkdownContent body10 RegexBlocks.noneFound) =
      chunkConditions md10 0 (List.replicate 9 paraA) := by
    rw [synthesize_long md10 _ h1 h2 hpe h4, hfc, splitCI_body10]
  have hpr : (synthesizeRuleConditions md10
      (parseMarkdownContent body10 RegexBlocks.noneFound)).map (·.priority) =
      [8, 7, 6, 5, 4, 3, 2, 1, 0] := by
    rw [hsynth, hcp md10]
    decide
  refine ⟨hcp, by rw [body10_length]; omega, splitCI_body10,
    by rw [splitCI_body10]; simp, hsynth, hpr, ?_, rfl⟩
  have hmem : (0 : Int) ∈ (synthesizeRuleConditions md10
      (parseMarkdownContent body10 RegexBlocks.noneFound)).map (·.priority) := by
    rw [hpr]
    decide
  obtain ⟨cd, hcd, hcd0⟩ := List.mem_map.mp hmem
  refine ⟨cd, hcd, ?_⟩
  unfold mkRuleCondition
  rw [if_neg (by rw [hcd0]; omega)]

end CursorRulesMCP
